import Mathlib

/-!
# Traffic-Lights: clock arithmetic and the paired light protocol

A shallow embedding of `time.cpp` and `trafficLight.cpp`.

* The C++ `int` fields of `Time` are mathematical integers.  `/` and `%` on
  `int` truncate toward zero, so they are `Int.tdiv` and `Int.tmod`.  Signed
  overflow is undefined in C++; the embedding describes the executions in
  which no intermediate value leaves the `int` range, and
  `Time.add_fits_int` shows that adding clocks built by the constructors
  never does.
* `Time::add` takes its argument by reference and updates the receiver field
  by field.  `Time.addByRef` follows the method statement by statement for
  both kinds of argument, an object other than the receiver or the receiver
  itself; `Time.add` is the method for an argument other than the receiver,
  which is every call made in `trafficLight.cpp` (`global_time.add(delay_time)`).
* Lights live in a store (a list); a `TrafficLight*` is an index into it and
  `nullptr` is `none`.
* `cout` is a list of output lines.
-/

/-- The `Time` class of `time.h`: the three private `int` fields. -/
structure Time where
  theHour : Int
  theMins : Int
  theSecs : Int
  deriving DecidableEq, Repr

/-- The default constructor `Time::Time()`: the time 0:0:0. -/
def Time.Time0 : Time :=
  { theHour := 0, theMins := 0, theSecs := 0 }

/-- The constructor `Time::Time(int hours, int mins, int secs)`. -/
def Time.Time3 (hours mins secs : Int) : Time :=
  { theSecs := Int.tmod secs 60,
    theMins := Int.tmod mins 60 + Int.tdiv secs 60,
    theHour := Int.tmod (hours + Int.tdiv (mins + Int.tdiv secs 60) 60) 24 }

/-- The method `Time::add(const Time& anotherTime)` called with an argument
that is an object other than the receiver, as a function from the receiver
before the call to the receiver after it.  The fields of `anotherTime` are
then the same at every statement; the call `t.add(t)`, whose argument changes
while the receiver is updated, is `Time.addByRef t TimeArg.receiver`. -/
def Time.add (self anotherTime : Time) : Time :=
  -- Add the seconds first and normalise
  let theSecs1 := self.theSecs + anotherTime.theSecs
  let theMins1 := self.theMins + Int.tdiv theSecs1 60
  let theSecs2 := Int.tmod theSecs1 60
  -- Then add the minutes and normalise
  let theMins2 := theMins1 + anotherTime.theMins
  let theHour1 := self.theHour + Int.tdiv theMins2 60
  let theMins3 := Int.tmod theMins2 60
  -- Then add the hours and normalise
  let theHour2 := theHour1 + anotherTime.theHour
  let theHour3 := Int.tmod theHour2 24
  { theHour := theHour3, theMins := theMins3, theSecs := theSecs2 }

/-- What the parameter `const Time& anotherTime` of `Time::add` refers to: an
object other than the receiver, with the given fields, or the receiver itself. -/
inductive TimeArg where
  | other (anotherTime : Time)
  | receiver
  deriving DecidableEq, Repr

/-- The object `anotherTime` refers to, at a moment when the receiver holds
`current`: what `anotherTime.theSecs`, `anotherTime.theMins` and
`anotherTime.theHour` read at that moment. -/
def TimeArg.read : TimeArg → Time → Time
  | TimeArg.other anotherTime, _ => anotherTime
  | TimeArg.receiver, current => current

/-- The method `Time::add(const Time& anotherTime)`, statement by statement:
each field of `anotherTime` is read through the reference at the statement
that uses it. -/
def Time.addByRef (self : Time) (anotherTime : TimeArg) : Time :=
  -- theSecs += anotherTime.theSecs;
  let t1 : Time := { self with theSecs := self.theSecs + (anotherTime.read self).theSecs }
  -- theMins += theSecs / 60;
  let t2 : Time := { t1 with theMins := t1.theMins + Int.tdiv t1.theSecs 60 }
  -- theSecs %= 60;
  let t3 : Time := { t2 with theSecs := Int.tmod t2.theSecs 60 }
  -- theMins += anotherTime.theMins;
  let t4 : Time := { t3 with theMins := t3.theMins + (anotherTime.read t3).theMins }
  -- theHour += theMins / 60;
  let t5 : Time := { t4 with theHour := t4.theHour + Int.tdiv t4.theMins 60 }
  -- theMins %= 60;
  let t6 : Time := { t5 with theMins := Int.tmod t5.theMins 60 }
  -- theHour += anotherTime.theHour;
  let t7 : Time := { t6 with theHour := t6.theHour + (anotherTime.read t6).theHour }
  -- theHour %= 24;
  { t7 with theHour := Int.tmod t7.theHour 24 }

/-- The instant a clock denotes, in seconds since 0:0:0. -/
def Time.total (t : Time) : Int :=
  3600 * t.theHour + 60 * t.theMins + t.theSecs

/-- All three fields are non-negative. -/
def Time.NonNeg (t : Time) : Prop :=
  0 ≤ t.theHour ∧ 0 ≤ t.theMins ∧ 0 ≤ t.theSecs

/-- The normalised range: hours in `[0,23]`, minutes and seconds in `[0,59]`. -/
def Time.Normalized (t : Time) : Prop :=
  (0 ≤ t.theHour ∧ t.theHour < 24) ∧ (0 ≤ t.theMins ∧ t.theMins < 60) ∧
    (0 ≤ t.theSecs ∧ t.theSecs < 60)

instance (t : Time) : Decidable t.NonNeg := by
  unfold Time.NonNeg; infer_instance

instance (t : Time) : Decidable t.Normalized := by
  unfold Time.Normalized; infer_instance

/-- The private enum `colour_of_light` of `TrafficLight`. -/
inductive colour_of_light where
  | red
  | yellow
  | green
  deriving DecidableEq, Repr

/-- The per-object fields of the `TrafficLight` class.  `collaborator_light`
is the address of the collaborating light in the store, `none` for `nullptr`. -/
structure TrafficLight where
  delay_time : Time
  light : String
  current_colour : colour_of_light
  collaborator_light : Option Nat
  deriving DecidableEq, Repr

/-- One line written to `cout`: the banner of `carWantsToCross`
(`***  at <time> a car wants to cross light <name>, with colour: <colour>`,
preceded by an empty line) or a transition line
(`     at <time> <name> changes colour to <colour>`). -/
inductive Line where
  | wantsToCross (stamp : Time) (light : String) (colour : colour_of_light)
  | changes (stamp : Time) (light : String) (colour : colour_of_light)
  deriving DecidableEq, Repr

/-- The state of the program: the store of light objects (a `TrafficLight*`
is an index into `lights`), the static member `TrafficLight::global_time`, and
what has been written to `cout`. -/
structure World where
  lights : List TrafficLight
  global_time : Time
  cout : List Line
  deriving DecidableEq, Repr

/-- The state before any light exists: `Time TrafficLight::global_time(0, 0, 0)`. -/
def World.init : World :=
  { lights := [], global_time := Time.Time3 0 0 0, cout := [] }

/-- The colour of the light at address `i`, if there is one. -/
def World.colour (w : World) (i : Nat) : Option colour_of_light :=
  (w.lights[i]?).map TrafficLight.current_colour

/-- The collaborator pointer of the light at address `i`, if there is one. -/
def World.collaborator (w : World) (i : Nat) : Option (Option Nat) :=
  (w.lights[i]?).map TrafficLight.collaborator_light

/-- The constructor `TrafficLight::TrafficLight(Time delay, char* light)`:
the new object is placed at the next free address, which is returned. -/
def TrafficLight.TrafficLight2 (delay : Time) (light : String) (w : World) : World × Nat :=
  ({ w with lights := w.lights ++
      [{ delay_time := delay, light := light, current_colour := colour_of_light.red,
         collaborator_light := none }] },
   w.lights.length)

/-- The constructor
`TrafficLight::TrafficLight(Time delay, char* light, TrafficLight& collab_light)`:
the member initialisers run first, then the body links `collab_light` back
when its own pointer is still null. -/
def TrafficLight.TrafficLight3 (delay : Time) (light : String) (collab_light : Nat)
    (w : World) : World × Nat :=
  let this := w.lights.length
  let w1 : World := { w with lights := w.lights ++
      [{ delay_time := delay, light := light, current_colour := colour_of_light.red,
         collaborator_light := some collab_light }] }
  match w1.lights[collab_light]? with
  | some c =>
    if c.collaborator_light = none then
      ({ w1 with lights := w1.lights.set collab_light { c with collaborator_light := some this } },
       this)
    else (w1, this)
  | none => (w1, this)

/-- One state transition of the light `l` stored at address `self`, the three
statements every transition in `trafficLight.cpp` consists of:
`global_time.add(delay_time); current_colour = c;`
`cout << "     at " << global_time << " " << light << " changes colour to " ...`. -/
def World.changeColour (w : World) (self : Nat) (l : TrafficLight)
    (c : colour_of_light) : World :=
  let t := w.global_time.add l.delay_time
  { lights := w.lights.set self { l with current_colour := c },
    global_time := t,
    cout := w.cout ++ [Line.changes t l.light c] }

mutual
/-- The method `TrafficLight::request_to_turn_red()` called on the light at
address `self`.  The two request methods call each other through the
collaborator pointers; `fuel` bounds the depth of that call chain and `none`
means the bound was reached (or `self` is not the address of a light). -/
def TrafficLight.request_to_turn_red : Nat → Nat → World → Option World
  | 0, _, _ => none
  | fuel + 1, self, w =>
    match w.lights[self]? with
    | none => none
    | some l =>
      match l.current_colour with
      | colour_of_light.red => some w -- Already red, so no action required
      | colour_of_light.yellow =>
        -- Transition from yellow to red
        let w1 := w.changeColour self l colour_of_light.red
        -- Notify collaborator light to turn green, if present
        match l.collaborator_light with
        | some c => TrafficLight.request_to_turn_green fuel c w1
        | none => some w1
      | colour_of_light.green =>
        -- Transition from green to yellow
        let w1 := w.changeColour self l colour_of_light.yellow
        -- Notify collaborator light to turn green, if present
        match l.collaborator_light with
        | some c => TrafficLight.request_to_turn_green fuel c w1
        | none => some w1
/-- The method `TrafficLight::request_to_turn_green()` called on the light at
address `self`; `fuel` as in `request_to_turn_red`. -/
def TrafficLight.request_to_turn_green : Nat → Nat → World → Option World
  | 0, _, _ => none
  | fuel + 1, self, w =>
    match w.lights[self]? with
    | none => none
    | some l =>
      match l.current_colour with
      | colour_of_light.green => some w -- Already green, no action required
      | colour_of_light.yellow =>
        -- Transition from yellow to green
        some (w.changeColour self l colour_of_light.green)
      | colour_of_light.red =>
        -- Transition from red to yellow
        let w1 := w.changeColour self l colour_of_light.yellow
        -- Notify collaborator light to turn red, if present
        match l.collaborator_light with
        | some c => TrafficLight.request_to_turn_red fuel c w1
        | none => some w1
end

/-- The method `TrafficLight::carWantsToCross()` called on the light at
address `self`; `fuel` bounds the request chain it may start. -/
def TrafficLight.carWantsToCross (fuel : Nat) (self : Nat) (w : World) : Option World :=
  match w.lights[self]? with
  | none => none
  | some l =>
    let w0 : World :=
      { w with cout := w.cout ++ [Line.wantsToCross w.global_time l.light l.current_colour] }
    match l.current_colour with
    | colour_of_light.red =>
      match l.collaborator_light with
      | none => some w0
      | some c =>
        match w0.lights[c]? with
        | none => none
        | some cl =>
          -- Check if the collaborator light is green
          if cl.current_colour = colour_of_light.green then
            TrafficLight.request_to_turn_red fuel c w0
          -- If the collaborator light is red as well, change this light to yellow and then green
          else if cl.current_colour = colour_of_light.red then
            some ((w0.changeColour self l colour_of_light.yellow).changeColour self
              { l with current_colour := colour_of_light.yellow } colour_of_light.green)
          else some w0
    | colour_of_light.yellow => some w0 -- No action for yellow light
    | colour_of_light.green => some w0 -- No action for green light

/-- The static method `TrafficLight::setTheTime(const Time& new_time)`. -/
def TrafficLight.setTheTime (new_time : Time) (w : World) : World :=
  { w with global_time := new_time }

/-- The lights at addresses `a` and `b` are `A` and `B`, two different objects
that point at each other: a mutually linked pair. -/
def World.Linked (w : World) (a b : Nat) (A B : TrafficLight) : Prop :=
  a ≠ b ∧ w.lights[a]? = some A ∧ w.lights[b]? = some B ∧
    A.collaborator_light = some b ∧ B.collaborator_light = some a

instance (w : World) (a b : Nat) (A B : TrafficLight) : Decidable (w.Linked a b A B) := by
  unfold World.Linked; infer_instance

/-- A pair of linked lights, `A` red at address 0 and `B` green at address 1,
both with delay `Time(0,0,5)`, at clock 0:0:0 with nothing printed yet. -/
def exchangeWorld : World :=
  { lights :=
      [{ delay_time := Time.Time3 0 0 5, light := "A",
         current_colour := colour_of_light.red, collaborator_light := some 1 },
       { delay_time := Time.Time3 0 0 5, light := "B",
         current_colour := colour_of_light.green, collaborator_light := some 0 }],
    global_time := Time.Time3 0 0 0,
    cout := [] }

/-- The pair of the first test scenario: `A` built alone, then `B` built with
`A` as collaborator, both with delay `Time(0,0,10)`; the clock is the initial one. -/
def bothRedWorld : World :=
  (TrafficLight.TrafficLight3 (Time.Time3 0 0 10) "B" 0
    (TrafficLight.TrafficLight2 (Time.Time3 0 0 10) "A" World.init).1).1

/-- A single red light `A` with delay `Time(0,0,10)` and no collaborator, as
built by the two-argument constructor in the initial state. -/
def isolatedWorld : World :=
  (TrafficLight.TrafficLight2 (Time.Time3 0 0 10) "A" World.init).1

/-- The output operator `operator << (ostream& stream, const Time& t1)`: the
stream is the text written so far; an `int` is written in decimal, with a
leading `-` when negative and no padding. -/
def Time.output (stream : String) (t1 : Time) : String :=
  stream ++ toString t1.theHour ++ ":" ++ toString t1.theMins ++ ":" ++ toString t1.theSecs

/-- The rendering of a clock in the words of the specification: the decimal
hours, minutes and seconds joined by colons. -/
def Time.renderingSpec (t : Time) : String :=
  String.intercalate ":" [toString t.theHour, toString t.theMins, toString t.theSecs]

/-- The state `w1` differs from `w` by exactly one transition of the light `l`
at address `self` to the colour `c`: that light has the new colour and is
otherwise the same, every other light is the same, the shared clock has
advanced by the delay of `l` once and one transition line was printed. -/
def World.OneTransition (w : World) (self : Nat) (l : TrafficLight) (c : colour_of_light)
    (w1 : World) : Prop :=
  w1.lights[self]? = some { l with current_colour := c } ∧
    (∀ i, i ≠ self → w1.lights[i]? = w.lights[i]?) ∧
    w1.global_time = w.global_time.add l.delay_time ∧
    w1.cout = w.cout ++ [Line.changes (w.global_time.add l.delay_time) l.light c]

/-- A single light `A` of colour `c` with delay `Time(0,0,10)` and no
collaborator, at clock 0:0:0 with nothing printed yet. -/
def loneWorld (c : colour_of_light) : World :=
  { lights := [{ delay_time := Time.Time3 0 0 10, light := "A", current_colour := c,
                 collaborator_light := none }],
    global_time := Time.Time3 0 0 0,
    cout := [] }

/-- The number of transition lines in an output (banners are not counted). -/
def transitionCount : List Line → Nat
  | [] => 0
  | Line.changes _ _ _ :: rest => transitionCount rest + 1
  | Line.wantsToCross _ _ _ :: rest => transitionCount rest

/-- The fields of a light that no method assigns: delay, name and collaborator. -/
def TrafficLight.fixedPart (l : TrafficLight) : Time × String × Option Nat :=
  (l.delay_time, l.light, l.collaborator_light)

/-- The list `lines` is what the transitions `steps` print, in order, when the
clock starts at `t`, and `t1` is the clock after them: the transition
`(i, c)` of the light `l` stored at address `i` first adds the delay of `l`
to the clock and then prints the new clock, the name of `l` and `c`. -/
def ClockTrace (lights : List TrafficLight) :
    Time → List (Nat × colour_of_light) → List Line → Time → Prop
  | t, [], [], t1 => t1 = t
  | t, (i, c) :: steps, line :: lines, t1 =>
    match lights[i]? with
    | some l =>
      line = Line.changes (t.add l.delay_time) l.light c ∧
        ClockTrace lights (t.add l.delay_time) steps lines t1
    | none => False
  | _, [], _ :: _, _ => False
  | _, _ :: _, [], _ => False

/-- A linked pair of red lights whose delay is the default `Time()`, 0:0:0,
built by the constructors in the initial state. -/
def zeroDelayWorld : World :=
  (TrafficLight.TrafficLight3 Time.Time0 "B" 0
    (TrafficLight.TrafficLight2 Time.Time0 "A" World.init).1).1

/-- From the state `w` to the state `w1` the output grew by the lines of a
list of transitions, and the shared clock moved from the clock of `w` to the
clock of `w1` by the delays of the lights that made them. -/
def World.TracedTo (w w1 : World) : Prop :=
  ∃ steps new, w1.cout = w.cout ++ new ∧
    ClockTrace w.lights w.global_time steps new w1.global_time

/-- The state `exchangeWorld` is in after a car asked to cross at `A`: the
pair has been exchanged and five lines have been printed. -/
def exchangedWorld : World :=
  { lights :=
      [{ delay_time := Time.Time3 0 0 5, light := "A",
         current_colour := colour_of_light.green, collaborator_light := some 1 },
       { delay_time := Time.Time3 0 0 5, light := "B",
         current_colour := colour_of_light.red, collaborator_light := some 0 }],
    global_time := Time.Time3 0 0 20,
    cout :=
      [Line.wantsToCross (Time.Time3 0 0 0) "A" colour_of_light.red,
       Line.changes (Time.Time3 0 0 5) "B" colour_of_light.yellow,
       Line.changes (Time.Time3 0 0 10) "A" colour_of_light.yellow,
       Line.changes (Time.Time3 0 0 15) "B" colour_of_light.red,
       Line.changes (Time.Time3 0 0 20) "A" colour_of_light.green] }

/-- One constructor call made by the driver: a light built alone or a light
built with the light at address `collab_light` as its collaborator. -/
inductive Construction where
  | alone (delay : Time) (light : String)
  | withCollaborator (delay : Time) (light : String) (collab_light : Nat)

/-- The state after one constructor call. -/
def Construction.run : Construction → World → World
  | Construction.alone delay light, w => (TrafficLight.TrafficLight2 delay light w).1
  | Construction.withCollaborator delay light collab_light, w =>
    (TrafficLight.TrafficLight3 delay light collab_light w).1

/-- The state after a sequence of constructor calls, in order. -/
def constructAll : List Construction → World → World
  | [], w => w
  | k :: ks, w => constructAll ks (k.run w)

/-- Every collaborator argument in the sequence is the address of a light that
was constructed before the call. -/
def PreviouslyConstructed : List Construction → World → Prop
  | [], _ => True
  | Construction.alone delay light :: ks, w =>
    PreviouslyConstructed ks ((Construction.alone delay light).run w)
  | Construction.withCollaborator delay light collab_light :: ks, w =>
    collab_light < w.lights.length ∧
      PreviouslyConstructed ks ((Construction.withCollaborator delay light collab_light).run w)

/-- Every collaborator argument in the sequence is the address of a light that
was constructed before the call and has no collaborator at the time of the call. -/
def FreeCollaborators : List Construction → World → Prop
  | [], _ => True
  | Construction.alone delay light :: ks, w =>
    FreeCollaborators ks ((Construction.alone delay light).run w)
  | Construction.withCollaborator delay light collab_light :: ks, w =>
    w.collaborator collab_light = some none ∧
      FreeCollaborators ks ((Construction.withCollaborator delay light collab_light).run w)

/-- The collaboration relation is symmetric: whenever a light `i` has
collaborator `j`, the collaborator of `j` is `i`. -/
def World.Symmetric (w : World) : Prop :=
  ∀ i j, w.collaborator i = some (some j) → w.collaborator j = some (some i)

/-- Three constructor calls: `A` alone, then `B` and `C` both with `A` as
collaborator. -/
def threeLights : List Construction :=
  [Construction.alone (Time.Time3 0 0 10) "A",
   Construction.withCollaborator (Time.Time3 0 0 10) "B" 0,
   Construction.withCollaborator (Time.Time3 0 0 10) "C" 0]

/-- Four constructor calls that build two pairs: `A` alone, `B` with `A`, `C`
alone, `D` with `C`. -/
def twoPairs : List Construction :=
  [Construction.alone (Time.Time3 0 0 10) "A",
   Construction.withCollaborator (Time.Time3 0 0 10) "B" 0,
   Construction.alone (Time.Time3 0 0 5) "C",
   Construction.withCollaborator (Time.Time3 0 0 5) "D" 2]

mutual
/-- The method `TrafficLight::request_to_turn_red()` once more, now returning
the states the program passes through: the state after each transition, in
order (none when the light is already red).  The code is that of
`request_to_turn_red`; the last state listed is the state it returns. -/
def TrafficLight.request_to_turn_red_states : Nat → Nat → World → Option (List World)
  | 0, _, _ => none
  | fuel + 1, self, w =>
    match w.lights[self]? with
    | none => none
    | some l =>
      match l.current_colour with
      | colour_of_light.red => some [] -- Already red, so no action required
      | colour_of_light.yellow =>
        -- Transition from yellow to red
        let w1 := w.changeColour self l colour_of_light.red
        -- Notify collaborator light to turn green, if present
        match l.collaborator_light with
        | some c => (TrafficLight.request_to_turn_green_states fuel c w1).map (List.cons w1)
        | none => some [w1]
      | colour_of_light.green =>
        -- Transition from green to yellow
        let w1 := w.changeColour self l colour_of_light.yellow
        -- Notify collaborator light to turn green, if present
        match l.collaborator_light with
        | some c => (TrafficLight.request_to_turn_green_states fuel c w1).map (List.cons w1)
        | none => some [w1]
/-- The method `TrafficLight::request_to_turn_green()` once more, returning
the state after each transition, as `request_to_turn_red_states` does. -/
def TrafficLight.request_to_turn_green_states : Nat → Nat → World → Option (List World)
  | 0, _, _ => none
  | fuel + 1, self, w =>
    match w.lights[self]? with
    | none => none
    | some l =>
      match l.current_colour with
      | colour_of_light.green => some [] -- Already green, no action required
      | colour_of_light.yellow =>
        -- Transition from yellow to green
        some [w.changeColour self l colour_of_light.green]
      | colour_of_light.red =>
        -- Transition from red to yellow
        let w1 := w.changeColour self l colour_of_light.yellow
        -- Notify collaborator light to turn red, if present
        match l.collaborator_light with
        | some c => (TrafficLight.request_to_turn_red_states fuel c w1).map (List.cons w1)
        | none => some [w1]
end

/-- The method `TrafficLight::carWantsToCross()` once more, returning the
states the program passes through: the state after the banner, then the state
after each transition, in order.  The last state listed is the state
`carWantsToCross` returns. -/
def TrafficLight.carWantsToCross_states (fuel : Nat) (self : Nat) (w : World) :
    Option (List World) :=
  match w.lights[self]? with
  | none => none
  | some l =>
    let w0 : World :=
      { w with cout := w.cout ++ [Line.wantsToCross w.global_time l.light l.current_colour] }
    match l.current_colour with
    | colour_of_light.red =>
      match l.collaborator_light with
      | none => some [w0]
      | some c =>
        match w0.lights[c]? with
        | none => none
        | some cl =>
          -- Check if the collaborator light is green
          if cl.current_colour = colour_of_light.green then
            (TrafficLight.request_to_turn_red_states fuel c w0).map (List.cons w0)
          -- If the collaborator light is red as well, change this light to yellow and then green
          else if cl.current_colour = colour_of_light.red then
            some [w0, w0.changeColour self l colour_of_light.yellow,
              (w0.changeColour self l colour_of_light.yellow).changeColour self
                { l with current_colour := colour_of_light.yellow } colour_of_light.green]
          else some [w0]
    | colour_of_light.yellow => some [w0] -- No action for yellow light
    | colour_of_light.green => some [w0] -- No action for green light

/-- The driver: cars ask to cross at the lights at the addresses `calls`, one
after the other. -/
def TrafficLight.carsWantToCross (fuel : Nat) : List Nat → World → Option World
  | [], w => some w
  | self :: rest, w =>
    match TrafficLight.carWantsToCross fuel self w with
    | none => none
    | some w1 => TrafficLight.carsWantToCross fuel rest w1

/-- The driver once more, returning every state the program passes through
during the calls, in order. -/
def TrafficLight.carsWantToCross_states (fuel : Nat) : List Nat → World → Option (List World)
  | [], _ => some []
  | self :: rest, w =>
    match TrafficLight.carWantsToCross_states fuel self w with
    | none => none
    | some h =>
      match TrafficLight.carsWantToCross_states fuel rest (h.getLastD w) with
      | none => none
      | some hs => some (h ++ hs)

/-- The lights at addresses `a` and `b` are a mutually linked pair with
colours `ca` and `cb`. -/
def World.PairColours (w : World) (a b : Nat) (ca cb : colour_of_light) : Prop :=
  a ≠ b ∧ w.collaborator a = some (some b) ∧ w.collaborator b = some (some a) ∧
    w.colour a = some ca ∧ w.colour b = some cb

/-- The lights at addresses `a` and `b` are both green. -/
def World.BothGreen (w : World) (a b : Nat) : Prop :=
  w.colour a = some colour_of_light.green ∧ w.colour b = some colour_of_light.green

instance (w : World) (a b : Nat) (ca cb : colour_of_light) :
    Decidable (w.PairColours a b ca cb) := by
  unfold World.PairColours; infer_instance

/-- Exactly one light of the linked pair `a`, `b` is green; the other is red. -/
def World.OneGreen (w : World) (a b : Nat) : Prop :=
  w.PairColours a b colour_of_light.green colour_of_light.red ∨
    w.PairColours a b colour_of_light.red colour_of_light.green

/-- The colours a linked pair rests in between calls: red/red, green/red or
red/green. -/
def World.Resting (w : World) (a b : Nat) : Prop :=
  w.PairColours a b colour_of_light.red colour_of_light.red ∨ w.OneGreen a b

/-! ## Clock arithmetic -/

/-- On non-negative operands C++ `/` is floor division. -/
theorem tdiv_of_nonneg (x : Int) (hx : 0 ≤ x) : Int.tdiv x 60 = x / 60 :=
  Int.tdiv_eq_ediv hx (by decide)

/-- On non-negative operands C++ `% 60` is the mathematical remainder. -/
theorem tmod60_of_nonneg (x : Int) (hx : 0 ≤ x) : Int.tmod x 60 = x % 60 :=
  Int.tmod_eq_emod hx (by decide)

/-- On non-negative operands C++ `% 24` is the mathematical remainder. -/
theorem tmod24_of_nonneg (x : Int) (hx : 0 ≤ x) : Int.tmod x 24 = x % 24 :=
  Int.tmod_eq_emod hx (by decide)

/-- Closed form of `Time::add` on clocks with non-negative fields. -/
theorem Time.add_of_nonneg (a b : Time) (ha : a.NonNeg) (hb : b.NonNeg) :
    a.add b =
      { theHour := (a.theHour + (a.theMins + (a.theSecs + b.theSecs) / 60 + b.theMins) / 60
          + b.theHour) % 24,
        theMins := (a.theMins + (a.theSecs + b.theSecs) / 60 + b.theMins) % 60,
        theSecs := (a.theSecs + b.theSecs) % 60 } := by
  obtain ⟨ah, am, as⟩ := ha
  obtain ⟨bh, bm, bs⟩ := hb
  have hs : 0 ≤ a.theSecs + b.theSecs := by omega
  have hm : 0 ≤ a.theMins + (a.theSecs + b.theSecs) / 60 + b.theMins := by omega
  have hh : 0 ≤ a.theHour + (a.theMins + (a.theSecs + b.theSecs) / 60 + b.theMins) / 60
      + b.theHour := by omega
  simp only [Time.add]
  rw [tdiv_of_nonneg _ hs, tmod60_of_nonneg _ hs, tdiv_of_nonneg _ hm, tmod60_of_nonneg _ hm,
    tmod24_of_nonneg _ hh]

/-- Adding clocks with non-negative fields gives a clock in normalised range. -/
theorem Time.add_normalized_of_nonneg (a b : Time) (ha : a.NonNeg) (hb : b.NonNeg) :
    (a.add b).Normalized := by
  rw [Time.add_of_nonneg a b ha hb]
  obtain ⟨ah, am, as⟩ := ha
  obtain ⟨bh, bm, bs⟩ := hb
  simp only [Time.Normalized]
  omega

/-- Adding clocks with non-negative fields adds the instants they denote,
modulo one day. -/
theorem Time.total_add_of_nonneg (a b : Time) (ha : a.NonNeg) (hb : b.NonNeg) :
    (a.add b).total = (a.total + b.total) % 86400 := by
  rw [Time.add_of_nonneg a b ha hb]
  obtain ⟨ah, am, as⟩ := ha
  obtain ⟨bh, bm, bs⟩ := hb
  simp only [Time.total]
  omega

/-- A clock in normalised range has non-negative fields. -/
theorem Time.Normalized.nonNeg {t : Time} (h : t.Normalized) : t.NonNeg :=
  ⟨h.1.1, h.2.1.1, h.2.2.1⟩

/-- A clock in normalised range is determined by the instant it denotes. -/
theorem Time.eq_of_total_eq (c d : Time) (hc : c.Normalized) (hd : d.Normalized)
    (h : c.total = d.total) : c = d := by
  obtain ⟨ch, cm, cs⟩ := c
  obtain ⟨dh, dm, ds⟩ := d
  simp only [Time.Normalized, Time.total] at hc hd h
  simp only [Time.mk.injEq]
  omega

/-- No intermediate value of `Time::add` leaves the range of a 32-bit `int`
when the fields of both clocks are non-negative and at most `2^29`; every
clock built by `Time::Time(int,int,int)` from non-negative `int` arguments is
within that bound (its minutes are below `60 + 2^31 / 60`). -/
theorem Time.add_fits_int (a b : Time) (ha : a.NonNeg) (hb : b.NonNeg)
    (hA : a.theHour ≤ 2 ^ 29 ∧ a.theMins ≤ 2 ^ 29 ∧ a.theSecs ≤ 2 ^ 29)
    (hB : b.theHour ≤ 2 ^ 29 ∧ b.theMins ≤ 2 ^ 29 ∧ b.theSecs ≤ 2 ^ 29) :
    a.theSecs + b.theSecs < 2 ^ 31 ∧
    a.theMins + (a.theSecs + b.theSecs) / 60 < 2 ^ 31 ∧
    a.theMins + (a.theSecs + b.theSecs) / 60 + b.theMins < 2 ^ 31 ∧
    a.theHour + (a.theMins + (a.theSecs + b.theSecs) / 60 + b.theMins) / 60 < 2 ^ 31 ∧
    a.theHour + (a.theMins + (a.theSecs + b.theSecs) / 60 + b.theMins) / 60
      + b.theHour < 2 ^ 31 := by
  obtain ⟨ah, am, as⟩ := ha
  obtain ⟨bh, bm, bs⟩ := hb
  norm_num at hA hB ⊢
  omega

/-- What `Time::Time(int,int,int)` does establish on non-negative arguments:
seconds in `[0,59]`, hours in `[0,23]`, minutes non-negative, and the stored
minutes are `mins % 60 + secs / 60`. -/
theorem Time.Time3_of_nonneg (hours mins secs : Int) (hh : 0 ≤ hours) (hm : 0 ≤ mins)
    (hs : 0 ≤ secs) :
    (0 ≤ (Time.Time3 hours mins secs).theSecs ∧ (Time.Time3 hours mins secs).theSecs < 60) ∧
      (0 ≤ (Time.Time3 hours mins secs).theHour ∧ (Time.Time3 hours mins secs).theHour < 24) ∧
      (Time.Time3 hours mins secs).theMins = mins % 60 + secs / 60 := by
  have h1 : 0 ≤ mins + secs / 60 := by omega
  have h2 : 0 ≤ hours + (mins + secs / 60) / 60 := by omega
  simp only [Time.Time3]
  rw [tdiv_of_nonneg _ hs, tmod60_of_nonneg _ hs, tmod60_of_nonneg _ hm, tdiv_of_nonneg _ h1,
    tmod24_of_nonneg _ h2]
  omega

/-- Claim C1, evaluated on the code: `Time(0, 59, 60)` stores 60 in the minutes
field, outside `[0,59]`, because the carry from the seconds is added after the
minutes were reduced modulo 60; the seconds and hours are in range. -/
theorem Time3_minutes_out_of_range :
    Time.Time3 0 59 60 = { theHour := 1, theMins := 60, theSecs := 0 } ∧
      ¬ (Time.Time3 0 59 60).Normalized := by
  decide

/-- Claim C2, evaluated on the code: `Time(0, 59, 60)` denotes 7200 seconds
while its arguments denote 3600 seconds: the carry from the seconds is counted
both in the minutes field and in the hours field. -/
theorem Time3_total_mismatch :
    (Time.Time3 0 59 60).total = 7200 ∧ (3600 * 0 + 60 * 59 + 60 : Int) % 86400 = 3600 := by
  decide

/-- Addition of an argument other than the receiver: for clocks `a` and `b`
in normalised range, `b` not the object `a` itself, `a.add(b)` is the unique
clock in normalised range whose total seconds are
`(total a + total b) mod 86400`. -/
theorem Time_add_unique_normalized_sum (a b : Time) (ha : a.Normalized) (hb : b.Normalized) :
    (a.add b).Normalized ∧ (a.add b).total = (a.total + b.total) % 86400 ∧
      ∀ c : Time, c.Normalized → c.total = (a.total + b.total) % 86400 → c = a.add b := by
  have hn := Time.add_normalized_of_nonneg a b ha.nonNeg hb.nonNeg
  have ht := Time.total_add_of_nonneg a b ha.nonNeg hb.nonNeg
  exact ⟨hn, ht, fun c hc h => Time.eq_of_total_eq c _ hc hn (h.trans ht.symm)⟩

/-- The sum `23:59:59 + 0:0:1` as an instance of `Time_add_unique_normalized_sum`. -/
theorem Time_add_unique_normalized_sum_witness :
    (Time.mk 23 59 59).Normalized ∧ (Time.mk 0 0 1).Normalized ∧
      ((Time.mk 23 59 59).add (Time.mk 0 0 1)).Normalized ∧
      ((Time.mk 23 59 59).add (Time.mk 0 0 1)).total
        = ((Time.mk 23 59 59).total + (Time.mk 0 0 1).total) % 86400 ∧
      ∀ c : Time, c.Normalized →
        c.total = ((Time.mk 23 59 59).total + (Time.mk 0 0 1).total) % 86400 →
        c = (Time.mk 23 59 59).add (Time.mk 0 0 1) :=
  ⟨by decide, by decide,
    Time_add_unique_normalized_sum (Time.mk 23 59 59) (Time.mk 0 0 1) (by decide) (by decide)⟩

/-- Claim C4: `Time::add` preserves the normalised range: for every clock `a`
and argument `b` with non-negative fields, after `a.add(b)` the seconds and
minutes are in `[0,59]` and the hours in `[0,23]`. -/
theorem Time_add_preserves_range (a b : Time) (ha : a.NonNeg) (hb : b.NonNeg) :
    (0 ≤ (a.add b).theSecs ∧ (a.add b).theSecs ≤ 59) ∧
      (0 ≤ (a.add b).theMins ∧ (a.add b).theMins ≤ 59) ∧
      (0 ≤ (a.add b).theHour ∧ (a.add b).theHour ≤ 23) := by
  have h := Time.add_normalized_of_nonneg a b ha hb
  simp only [Time.Normalized] at h
  omega

/-- Witness of C4 at the unnormalised clocks `30:70:80` and `5:100:200`. -/
theorem Time_add_preserves_range_witness :
    (Time.mk 30 70 80).NonNeg ∧ (Time.mk 5 100 200).NonNeg ∧
      (0 ≤ ((Time.mk 30 70 80).add (Time.mk 5 100 200)).theSecs ∧
        ((Time.mk 30 70 80).add (Time.mk 5 100 200)).theSecs ≤ 59) ∧
      (0 ≤ ((Time.mk 30 70 80).add (Time.mk 5 100 200)).theMins ∧
        ((Time.mk 30 70 80).add (Time.mk 5 100 200)).theMins ≤ 59) ∧
      (0 ≤ ((Time.mk 30 70 80).add (Time.mk 5 100 200)).theHour ∧
        ((Time.mk 30 70 80).add (Time.mk 5 100 200)).theHour ≤ 23) :=
  ⟨by decide, by decide,
    Time_add_preserves_range (Time.mk 30 70 80) (Time.mk 5 100 200) (by decide) (by decide)⟩

/-- Addition of arguments other than the receiver is associative on clocks
with non-negative fields: adding `a` and then `b` to `t` gives the clock
obtained by adding to `t` the sum of `a` and `b` (computed in a third
object); in particular adding `Time(0,0,45)` twice is adding `Time(0,1,30)`
once. -/
theorem Time_add_assoc (t a b : Time) (ht : t.NonNeg) (ha : a.NonNeg) (hb : b.NonNeg) :
    (t.add a).add b = t.add (a.add b) ∧
      (t.add (Time.Time3 0 0 45)).add (Time.Time3 0 0 45) = t.add (Time.Time3 0 1 30) := by
  have assoc : ∀ x y : Time, x.NonNeg → y.NonNeg → (t.add x).add y = t.add (x.add y) := by
    intro x y hx hy
    have h1 := Time.add_normalized_of_nonneg t x ht hx
    have h2 := Time.add_normalized_of_nonneg x y hx hy
    apply Time.eq_of_total_eq
    · exact Time.add_normalized_of_nonneg _ _ h1.nonNeg hy
    · exact Time.add_normalized_of_nonneg _ _ ht h2.nonNeg
    · rw [Time.total_add_of_nonneg _ _ h1.nonNeg hy, Time.total_add_of_nonneg _ _ ht hx,
        Time.total_add_of_nonneg _ _ ht h2.nonNeg, Time.total_add_of_nonneg _ _ hx hy]
      omega
  refine ⟨assoc a b ha hb, ?_⟩
  rw [assoc (Time.Time3 0 0 45) (Time.Time3 0 0 45) (by decide) (by decide)]
  rfl

/-- The clocks `t = 23:59:50`, `a = 0:0:45`, `b = 0:59:30` as an instance of
`Time_add_assoc`. -/
theorem Time_add_assoc_witness :
    (Time.mk 23 59 50).NonNeg ∧ (Time.mk 0 0 45).NonNeg ∧ (Time.mk 0 59 30).NonNeg ∧
      ((Time.mk 23 59 50).add (Time.mk 0 0 45)).add (Time.mk 0 59 30)
        = (Time.mk 23 59 50).add ((Time.mk 0 0 45).add (Time.mk 0 59 30)) ∧
      ((Time.mk 23 59 50).add (Time.Time3 0 0 45)).add (Time.Time3 0 0 45)
        = (Time.mk 23 59 50).add (Time.Time3 0 1 30) :=
  ⟨by decide, by decide, by decide,
    Time_add_assoc (Time.mk 23 59 50) (Time.mk 0 0 45) (Time.mk 0 59 30)
      (by decide) (by decide) (by decide)⟩

/-! ## The paired light protocol -/

/-- A light that is looked up successfully lies inside the store. -/
theorem World.lt_length_of_lookup {w : World} {i : Nat} {l : TrafficLight}
    (h : w.lights[i]? = some l) : i < w.lights.length := by
  by_contra hn
  rw [List.getElem?_eq_none (by omega)] at h
  cases h

/-- After a transition the light at `self` is `l` in its new colour. -/
theorem World.changeColour_lookup_self (w : World) (self : Nat) (l l0 : TrafficLight)
    (c : colour_of_light) (h : w.lights[self]? = some l0) :
    (w.changeColour self l c).lights[self]? = some { l with current_colour := c } := by
  simp only [World.changeColour]
  exact List.getElem?_set_self (World.lt_length_of_lookup h)

/-- A transition of the light at `self` leaves the objects at other addresses alone. -/
theorem World.changeColour_lookup_ne (w : World) (self i : Nat) (l : TrafficLight)
    (c : colour_of_light) (h : self ≠ i) :
    (w.changeColour self l c).lights[i]? = w.lights[i]? := by
  simp only [World.changeColour]
  exact List.getElem?_set_ne h

/-- Case `red` of `request_to_turn_red`. -/
theorem request_to_turn_red_of_red (fuel self : Nat) (w : World) (l : TrafficLight)
    (h : w.lights[self]? = some l) (hc : l.current_colour = colour_of_light.red) :
    TrafficLight.request_to_turn_red (fuel + 1) self w = some w := by
  simp only [TrafficLight.request_to_turn_red, h, hc]

/-- Case `yellow` of `request_to_turn_red`, with a collaborator. -/
theorem request_to_turn_red_of_yellow (fuel self c : Nat) (w : World) (l : TrafficLight)
    (h : w.lights[self]? = some l) (hc : l.current_colour = colour_of_light.yellow)
    (hp : l.collaborator_light = some c) :
    TrafficLight.request_to_turn_red (fuel + 1) self w =
      TrafficLight.request_to_turn_green fuel c (w.changeColour self l colour_of_light.red) := by
  simp only [TrafficLight.request_to_turn_red, h, hc, hp]

/-- Case `green` of `request_to_turn_red`, with a collaborator. -/
theorem request_to_turn_red_of_green (fuel self c : Nat) (w : World) (l : TrafficLight)
    (h : w.lights[self]? = some l) (hc : l.current_colour = colour_of_light.green)
    (hp : l.collaborator_light = some c) :
    TrafficLight.request_to_turn_red (fuel + 1) self w =
      TrafficLight.request_to_turn_green fuel c (w.changeColour self l colour_of_light.yellow) := by
  simp only [TrafficLight.request_to_turn_red, h, hc, hp]

/-- Case `green` of `request_to_turn_green`. -/
theorem request_to_turn_green_of_green (fuel self : Nat) (w : World) (l : TrafficLight)
    (h : w.lights[self]? = some l) (hc : l.current_colour = colour_of_light.green) :
    TrafficLight.request_to_turn_green (fuel + 1) self w = some w := by
  simp only [TrafficLight.request_to_turn_green, h, hc]

/-- Case `yellow` of `request_to_turn_green`. -/
theorem request_to_turn_green_of_yellow (fuel self : Nat) (w : World) (l : TrafficLight)
    (h : w.lights[self]? = some l) (hc : l.current_colour = colour_of_light.yellow) :
    TrafficLight.request_to_turn_green (fuel + 1) self w =
      some (w.changeColour self l colour_of_light.green) := by
  simp only [TrafficLight.request_to_turn_green, h, hc]

/-- Case `red` of `request_to_turn_green`, with a collaborator. -/
theorem request_to_turn_green_of_red (fuel self c : Nat) (w : World) (l : TrafficLight)
    (h : w.lights[self]? = some l) (hc : l.current_colour = colour_of_light.red)
    (hp : l.collaborator_light = some c) :
    TrafficLight.request_to_turn_green (fuel + 1) self w =
      TrafficLight.request_to_turn_red fuel c (w.changeColour self l colour_of_light.yellow) := by
  simp only [TrafficLight.request_to_turn_green, h, hc, hp]

/-- The call `carWantsToCross` on a red light whose collaborator is green: the banner
is printed and the collaborator is asked to turn red. -/
theorem carWantsToCross_of_red_green (fuel self c : Nat) (w : World) (l cl : TrafficLight)
    (h : w.lights[self]? = some l) (hc : l.current_colour = colour_of_light.red)
    (hp : l.collaborator_light = some c) (h2 : w.lights[c]? = some cl)
    (hc2 : cl.current_colour = colour_of_light.green) :
    TrafficLight.carWantsToCross fuel self w =
      TrafficLight.request_to_turn_red fuel c
        { w with cout := w.cout ++ [Line.wantsToCross w.global_time l.light colour_of_light.red] } := by
  simp only [TrafficLight.carWantsToCross, h, hc, hp, h2, hc2, if_true]

/-- The call `carWantsToCross` on a red light whose collaborator is red too: the banner
and the two transitions of the light itself. -/
theorem carWantsToCross_of_red_red (fuel self c : Nat) (w : World) (l cl : TrafficLight)
    (h : w.lights[self]? = some l) (hc : l.current_colour = colour_of_light.red)
    (hp : l.collaborator_light = some c) (h2 : w.lights[c]? = some cl)
    (hc2 : cl.current_colour = colour_of_light.red) :
    TrafficLight.carWantsToCross fuel self w = some
      { lights := (w.lights.set self { l with current_colour := colour_of_light.yellow }).set self
          { l with current_colour := colour_of_light.green },
        global_time := (w.global_time.add l.delay_time).add l.delay_time,
        cout := w.cout ++
          [Line.wantsToCross w.global_time l.light colour_of_light.red,
           Line.changes (w.global_time.add l.delay_time) l.light colour_of_light.yellow,
           Line.changes ((w.global_time.add l.delay_time).add l.delay_time) l.light
             colour_of_light.green] } := by
  simp [TrafficLight.carWantsToCross, h, hc, hp, h2, hc2, World.changeColour]

/-- The call `carWantsToCross` on a red light without collaborator: only the banner. -/
theorem carWantsToCross_of_red_alone (fuel self : Nat) (w : World) (l : TrafficLight)
    (h : w.lights[self]? = some l) (hc : l.current_colour = colour_of_light.red)
    (hp : l.collaborator_light = none) :
    TrafficLight.carWantsToCross fuel self w = some
      { w with cout := w.cout ++ [Line.wantsToCross w.global_time l.light colour_of_light.red] } := by
  simp only [TrafficLight.carWantsToCross, h, hc, hp]

/-- The exchange started by a car at the red light `A` of a linked pair whose
other light `B` is green: the final state in full. -/
theorem carWantsToCross_exchange (w : World) (a b : Nat) (A B : TrafficLight) (fuel : Nat)
    (hl : w.Linked a b A B) (hA : A.current_colour = colour_of_light.red)
    (hB : B.current_colour = colour_of_light.green) :
    TrafficLight.carWantsToCross (fuel + 4) a w = some
      { lights := (((w.lights.set b { B with current_colour := colour_of_light.yellow }).set a
          { A with current_colour := colour_of_light.yellow }).set b
          { B with current_colour := colour_of_light.red }).set a
          { A with current_colour := colour_of_light.green },
        global_time :=
          (((w.global_time.add B.delay_time).add A.delay_time).add B.delay_time).add A.delay_time,
        cout := w.cout ++
          [Line.wantsToCross w.global_time A.light colour_of_light.red,
           Line.changes (w.global_time.add B.delay_time) B.light colour_of_light.yellow,
           Line.changes ((w.global_time.add B.delay_time).add A.delay_time) A.light
             colour_of_light.yellow,
           Line.changes (((w.global_time.add B.delay_time).add A.delay_time).add B.delay_time)
             B.light colour_of_light.red,
           Line.changes ((((w.global_time.add B.delay_time).add A.delay_time).add
             B.delay_time).add A.delay_time) A.light colour_of_light.green] } := by
  obtain ⟨hab, ha, hb, hAc, hBc⟩ := hl
  have hba : b ≠ a := fun h => hab h.symm
  have e0 := carWantsToCross_of_red_green (fuel + 3 + 1) a b w A B ha hA hAc hb hB
  -- hop 1: B green → yellow
  have e1 := request_to_turn_red_of_green (fuel + 3) b a
    { w with cout := w.cout ++ [Line.wantsToCross w.global_time A.light colour_of_light.red] }
    B hb hB hBc
  -- hop 2: A red → yellow
  have e2 := request_to_turn_green_of_red (fuel + 2) a b _ A
    ((World.changeColour_lookup_ne
      { w with cout := w.cout ++ [Line.wantsToCross w.global_time A.light colour_of_light.red] }
      b a B colour_of_light.yellow hba).trans ha) hA hAc
  -- hop 3: B yellow → red
  have e3 := request_to_turn_red_of_yellow (fuel + 1) b a _
    { B with current_colour := colour_of_light.yellow }
    ((World.changeColour_lookup_ne _ a b A colour_of_light.yellow hab).trans
      (World.changeColour_lookup_self
        { w with cout := w.cout ++ [Line.wantsToCross w.global_time A.light colour_of_light.red] }
        b B B colour_of_light.yellow hb)) rfl hBc
  -- hop 4: A yellow → green
  have e4 := request_to_turn_green_of_yellow fuel a _
    { A with current_colour := colour_of_light.yellow }
    ((World.changeColour_lookup_ne _ b a { B with current_colour := colour_of_light.yellow }
        colour_of_light.red hba).trans
      (World.changeColour_lookup_self _ a A A colour_of_light.yellow
        ((World.changeColour_lookup_ne
          { w with cout := w.cout ++ [Line.wantsToCross w.global_time A.light colour_of_light.red] }
          b a B colour_of_light.yellow hba).trans ha))) rfl
  rw [show fuel + 4 = fuel + 3 + 1 from rfl, e0, e1, e2, e3, e4]
  simp [World.changeColour]

/-- Claim C6: for every mutually linked pair `A`, `B` that are both red, every
clock value and every delay of `A`: `carWantsToCross` on `A` returns with `A`
green, `B` (and every other light) untouched and still red, the shared clock
advanced by the delay of `A` exactly twice, and exactly two transition lines
after the banner: `A` to yellow, then `A` to green. -/
theorem carWantsToCross_both_red (w : World) (a b : Nat) (A B : TrafficLight) (fuel : Nat)
    (hl : w.Linked a b A B) (hA : A.current_colour = colour_of_light.red)
    (hB : B.current_colour = colour_of_light.red) :
    ∃ w1, TrafficLight.carWantsToCross fuel a w = some w1 ∧
      w1.colour a = some colour_of_light.green ∧
      w1.colour b = some colour_of_light.red ∧
      w1.lights[a]? = some { A with current_colour := colour_of_light.green } ∧
      (∀ i, i ≠ a → w1.lights[i]? = w.lights[i]?) ∧
      w1.global_time = (w.global_time.add A.delay_time).add A.delay_time ∧
      w1.cout = w.cout ++
        [Line.wantsToCross w.global_time A.light colour_of_light.red,
         Line.changes (w.global_time.add A.delay_time) A.light colour_of_light.yellow,
         Line.changes ((w.global_time.add A.delay_time).add A.delay_time) A.light
           colour_of_light.green] := by
  obtain ⟨hab, ha, hb, hAc, hBc⟩ := hl
  have hla := World.lt_length_of_lookup ha
  have hframe : ∀ i, i ≠ a →
      ((w.lights.set a { A with current_colour := colour_of_light.yellow }).set a
        { A with current_colour := colour_of_light.green })[i]? = w.lights[i]? := by
    intro i hi
    rw [List.getElem?_set_ne (Ne.symm hi), List.getElem?_set_ne (Ne.symm hi)]
  have hself : ((w.lights.set a { A with current_colour := colour_of_light.yellow }).set a
        { A with current_colour := colour_of_light.green })[a]?
      = some { A with current_colour := colour_of_light.green } :=
    List.getElem?_set_self (by rw [List.length_set]; exact hla)
  refine ⟨_, carWantsToCross_of_red_red fuel a b w A B ha hA hAc hb hB, ?_, ?_, hself, hframe,
    rfl, rfl⟩
  · simp only [World.colour, hself, Option.map_some']
  · simp only [World.colour, hframe b (Ne.symm hab), hb, Option.map_some', hB]

/-- Witness of C6: the pair built by the constructors with delay `Time(0,0,10)`. -/
theorem carWantsToCross_both_red_witness :
    bothRedWorld.Linked 0 1
        ⟨Time.Time3 0 0 10, "A", colour_of_light.red, some 1⟩
        ⟨Time.Time3 0 0 10, "B", colour_of_light.red, some 0⟩ ∧
      ∃ w1, TrafficLight.carWantsToCross 0 0 bothRedWorld = some w1 ∧
        w1.colour 0 = some colour_of_light.green ∧
        w1.colour 1 = some colour_of_light.red ∧
        w1.lights[0]? = some ⟨Time.Time3 0 0 10, "A", colour_of_light.green, some 1⟩ ∧
        (∀ i, i ≠ 0 → w1.lights[i]? = bothRedWorld.lights[i]?) ∧
        w1.global_time =
          (bothRedWorld.global_time.add (Time.Time3 0 0 10)).add (Time.Time3 0 0 10) ∧
        w1.cout = bothRedWorld.cout ++
          [Line.wantsToCross bothRedWorld.global_time "A" colour_of_light.red,
           Line.changes (bothRedWorld.global_time.add (Time.Time3 0 0 10)) "A"
             colour_of_light.yellow,
           Line.changes ((bothRedWorld.global_time.add (Time.Time3 0 0 10)).add
             (Time.Time3 0 0 10)) "A" colour_of_light.green] :=
  ⟨by decide,
    carWantsToCross_both_red bothRedWorld 0 1
      ⟨Time.Time3 0 0 10, "A", colour_of_light.red, some 1⟩
      ⟨Time.Time3 0 0 10, "B", colour_of_light.red, some 0⟩ 0 (by decide) rfl rfl⟩

/-- Claim C7: for every mutually linked pair with `A` red and `B` green,
`carWantsToCross` on `A` (given room for the four nested requests) returns with
`A` green and `B` red, every other light untouched, after exactly four
transition lines, the shared clock advanced by one delay per transition:
the delay of `B`, of `A`, of `B` and of `A`. -/
theorem carWantsToCross_red_green_flips (w : World) (a b : Nat) (A B : TrafficLight)
    (fuel : Nat) (hl : w.Linked a b A B) (hA : A.current_colour = colour_of_light.red)
    (hB : B.current_colour = colour_of_light.green) (hf : 4 ≤ fuel) :
    ∃ w1, TrafficLight.carWantsToCross fuel a w = some w1 ∧
      w1.lights[a]? = some { A with current_colour := colour_of_light.green } ∧
      w1.lights[b]? = some { B with current_colour := colour_of_light.red } ∧
      (∀ i, i ≠ a → i ≠ b → w1.lights[i]? = w.lights[i]?) ∧
      w1.global_time =
        (((w.global_time.add B.delay_time).add A.delay_time).add B.delay_time).add
          A.delay_time ∧
      w1.cout = w.cout ++
        [Line.wantsToCross w.global_time A.light colour_of_light.red,
         Line.changes (w.global_time.add B.delay_time) B.light colour_of_light.yellow,
         Line.changes ((w.global_time.add B.delay_time).add A.delay_time) A.light
           colour_of_light.yellow,
         Line.changes (((w.global_time.add B.delay_time).add A.delay_time).add B.delay_time)
           B.light colour_of_light.red,
         Line.changes ((((w.global_time.add B.delay_time).add A.delay_time).add
           B.delay_time).add A.delay_time) A.light colour_of_light.green] := by
  obtain ⟨k, rfl⟩ : ∃ k, fuel = k + 4 := ⟨fuel - 4, by omega⟩
  have hla := World.lt_length_of_lookup hl.2.1
  have hlb := World.lt_length_of_lookup hl.2.2.1
  have hab := hl.1
  refine ⟨_, carWantsToCross_exchange w a b A B k hl hA hB, ?_, ?_, ?_, rfl, rfl⟩
  · exact List.getElem?_set_self (by simp only [List.length_set]; exact hla)
  · rw [List.getElem?_set_ne hab]
    exact List.getElem?_set_self (by simp only [List.length_set]; exact hlb)
  · intro i hia hib
    rw [List.getElem?_set_ne (Ne.symm hia), List.getElem?_set_ne (Ne.symm hib),
      List.getElem?_set_ne (Ne.symm hia), List.getElem?_set_ne (Ne.symm hib)]

/-- Witness of C7: `A` red with delay `0:0:7` at address 2, `B` green with
delay `0:1:0` at address 0, a third light in between, clock `23:59:30`. -/
theorem carWantsToCross_red_green_flips_witness :
    (World.mk [⟨⟨0, 1, 0⟩, "B", colour_of_light.green, some 2⟩,
               ⟨⟨0, 0, 3⟩, "C", colour_of_light.yellow, none⟩,
               ⟨⟨0, 0, 7⟩, "A", colour_of_light.red, some 0⟩] ⟨23, 59, 30⟩ []).Linked 2 0
        ⟨⟨0, 0, 7⟩, "A", colour_of_light.red, some 0⟩
        ⟨⟨0, 1, 0⟩, "B", colour_of_light.green, some 2⟩ ∧
      ∃ w1, TrafficLight.carWantsToCross 4 2
          (World.mk [⟨⟨0, 1, 0⟩, "B", colour_of_light.green, some 2⟩,
               ⟨⟨0, 0, 3⟩, "C", colour_of_light.yellow, none⟩,
               ⟨⟨0, 0, 7⟩, "A", colour_of_light.red, some 0⟩] ⟨23, 59, 30⟩ []) = some w1 ∧
        w1.lights[2]? = some ⟨⟨0, 0, 7⟩, "A", colour_of_light.green, some 0⟩ ∧
        w1.lights[0]? = some ⟨⟨0, 1, 0⟩, "B", colour_of_light.red, some 2⟩ ∧
        (∀ i, i ≠ 2 → i ≠ 0 → w1.lights[i]? =
          [(⟨⟨0, 1, 0⟩, "B", colour_of_light.green, some 2⟩ : TrafficLight),
               ⟨⟨0, 0, 3⟩, "C", colour_of_light.yellow, none⟩,
               ⟨⟨0, 0, 7⟩, "A", colour_of_light.red, some 0⟩][i]?) ∧
        w1.global_time =
          ((((Time.mk 23 59 30).add ⟨0, 1, 0⟩).add ⟨0, 0, 7⟩).add ⟨0, 1, 0⟩).add ⟨0, 0, 7⟩ ∧
        w1.cout = [] ++
          [Line.wantsToCross ⟨23, 59, 30⟩ "A" colour_of_light.red,
           Line.changes ((Time.mk 23 59 30).add ⟨0, 1, 0⟩) "B" colour_of_light.yellow,
           Line.changes (((Time.mk 23 59 30).add ⟨0, 1, 0⟩).add ⟨0, 0, 7⟩) "A"
             colour_of_light.yellow,
           Line.changes ((((Time.mk 23 59 30).add ⟨0, 1, 0⟩).add ⟨0, 0, 7⟩).add ⟨0, 1, 0⟩) "B"
             colour_of_light.red,
           Line.changes (((((Time.mk 23 59 30).add ⟨0, 1, 0⟩).add ⟨0, 0, 7⟩).add ⟨0, 1, 0⟩).add
             ⟨0, 0, 7⟩) "A" colour_of_light.green] :=
  ⟨by decide,
    carWantsToCross_red_green_flips
      (World.mk [⟨⟨0, 1, 0⟩, "B", colour_of_light.green, some 2⟩,
               ⟨⟨0, 0, 3⟩, "C", colour_of_light.yellow, none⟩,
               ⟨⟨0, 0, 7⟩, "A", colour_of_light.red, some 0⟩] ⟨23, 59, 30⟩ [])
      2 0 ⟨⟨0, 0, 7⟩, "A", colour_of_light.red, some 0⟩
      ⟨⟨0, 1, 0⟩, "B", colour_of_light.green, some 2⟩ 4 (by decide) rfl rfl (by decide)⟩

/-- Claim C8 as stated fails: in the pair `A` red, `B` green with delay
`Time(0,0,5)` on both, no call of `carWantsToCross` on `A` returns with `B`
green and `A` yellow or red. -/
theorem carWantsToCross_exchange_not_B_green :
    ¬ ∃ fuel w1, TrafficLight.carWantsToCross fuel 0 exchangeWorld = some w1 ∧
        w1.colour 1 = some colour_of_light.green ∧
        (w1.colour 0 = some colour_of_light.yellow ∨ w1.colour 0 = some colour_of_light.red) := by
  rintro ⟨fuel, w1, h, hB, -⟩
  by_cases hf : 4 ≤ fuel
  · obtain ⟨k, rfl⟩ : ∃ k, fuel = k + 4 := ⟨fuel - 4, by omega⟩
    rw [carWantsToCross_exchange exchangeWorld 0 1
      ⟨Time.Time3 0 0 5, "A", colour_of_light.red, some 1⟩
      ⟨Time.Time3 0 0 5, "B", colour_of_light.green, some 0⟩ k (by decide) rfl rfl] at h
    cases h
    revert hB
    decide
  · have h3 : fuel = 0 ∨ fuel = 1 ∨ fuel = 2 ∨ fuel = 3 := by omega
    rcases h3 with rfl | rfl | rfl | rfl <;> cases h

/-- Claim C8, amended: given a mutually linked pair with `A` red, `B` green
and delay `Time(0,0,5)` on both, `carWantsToCross` on `A` runs the 4-hop
exchange and ends with `A` green and `B` red. -/
theorem carWantsToCross_exchange_delay5 (w : World) (a b : Nat) (A B : TrafficLight)
    (fuel : Nat) (hl : w.Linked a b A B) (hA : A.current_colour = colour_of_light.red)
    (hB : B.current_colour = colour_of_light.green)
    (hdA : A.delay_time = Time.Time3 0 0 5) (hdB : B.delay_time = Time.Time3 0 0 5)
    (hf : 4 ≤ fuel) :
    ∃ w1, TrafficLight.carWantsToCross fuel a w = some w1 ∧
      w1.colour a = some colour_of_light.green ∧
      w1.colour b = some colour_of_light.red ∧
      w1.global_time = (((w.global_time.add (Time.Time3 0 0 5)).add (Time.Time3 0 0 5)).add
        (Time.Time3 0 0 5)).add (Time.Time3 0 0 5) ∧
      w1.cout = w.cout ++
        [Line.wantsToCross w.global_time A.light colour_of_light.red,
         Line.changes (w.global_time.add (Time.Time3 0 0 5)) B.light colour_of_light.yellow,
         Line.changes ((w.global_time.add (Time.Time3 0 0 5)).add (Time.Time3 0 0 5)) A.light
           colour_of_light.yellow,
         Line.changes (((w.global_time.add (Time.Time3 0 0 5)).add (Time.Time3 0 0 5)).add
           (Time.Time3 0 0 5)) B.light colour_of_light.red,
         Line.changes ((((w.global_time.add (Time.Time3 0 0 5)).add (Time.Time3 0 0 5)).add
           (Time.Time3 0 0 5)).add (Time.Time3 0 0 5)) A.light colour_of_light.green] := by
  obtain ⟨k, rfl⟩ : ∃ k, fuel = k + 4 := ⟨fuel - 4, by omega⟩
  have hla := World.lt_length_of_lookup hl.2.1
  have hlb := World.lt_length_of_lookup hl.2.2.1
  have hab := hl.1
  have e := carWantsToCross_exchange w a b A B k hl hA hB
  rw [hdA, hdB] at e
  refine ⟨_, e, ?_, ?_, rfl, rfl⟩
  · simp only [World.colour]
    rw [List.getElem?_set_self (by simp only [List.length_set]; exact hla)]
    rfl
  · simp only [World.colour]
    rw [List.getElem?_set_ne hab,
      List.getElem?_set_self (by simp only [List.length_set]; exact hlb)]
    rfl

/-- Witness of the amended C8 at `exchangeWorld`. -/
theorem carWantsToCross_exchange_delay5_witness :
    exchangeWorld.Linked 0 1
        ⟨Time.Time3 0 0 5, "A", colour_of_light.red, some 1⟩
        ⟨Time.Time3 0 0 5, "B", colour_of_light.green, some 0⟩ ∧
      ∃ w1, TrafficLight.carWantsToCross 4 0 exchangeWorld = some w1 ∧
        w1.colour 0 = some colour_of_light.green ∧
        w1.colour 1 = some colour_of_light.red ∧
        w1.global_time = (((exchangeWorld.global_time.add (Time.Time3 0 0 5)).add
          (Time.Time3 0 0 5)).add (Time.Time3 0 0 5)).add (Time.Time3 0 0 5) ∧
        w1.cout = exchangeWorld.cout ++
          [Line.wantsToCross exchangeWorld.global_time "A" colour_of_light.red,
           Line.changes (exchangeWorld.global_time.add (Time.Time3 0 0 5)) "B"
             colour_of_light.yellow,
           Line.changes ((exchangeWorld.global_time.add (Time.Time3 0 0 5)).add
             (Time.Time3 0 0 5)) "A" colour_of_light.yellow,
           Line.changes (((exchangeWorld.global_time.add (Time.Time3 0 0 5)).add
             (Time.Time3 0 0 5)).add (Time.Time3 0 0 5)) "B" colour_of_light.red,
           Line.changes ((((exchangeWorld.global_time.add (Time.Time3 0 0 5)).add
             (Time.Time3 0 0 5)).add (Time.Time3 0 0 5)).add (Time.Time3 0 0 5)) "A"
             colour_of_light.green] :=
  ⟨by decide,
    carWantsToCross_exchange_delay5 exchangeWorld 0 1
      ⟨Time.Time3 0 0 5, "A", colour_of_light.red, some 1⟩
      ⟨Time.Time3 0 0 5, "B", colour_of_light.green, some 0⟩ 4 (by decide) rfl rfl rfl rfl
      (by decide)⟩

/-- Claim C9 as stated fails: the red light without collaborator built by the
two-argument constructor is never green after `carWantsToCross`. -/
theorem carWantsToCross_isolated_not_green :
    ¬ ∃ fuel w1, TrafficLight.carWantsToCross fuel 0 isolatedWorld = some w1 ∧
        w1.colour 0 = some colour_of_light.green := by
  rintro ⟨fuel, w1, h, hg⟩
  rw [carWantsToCross_of_red_alone fuel 0 isolatedWorld
    ⟨Time.Time3 0 0 10, "A", colour_of_light.red, none⟩ rfl rfl rfl] at h
  cases h
  revert hg
  decide

/-- Claim C9, amended: for every light that has no collaborator and is red,
`carWantsToCross` prints the banner and nothing else happens: the light stays
red, no transition is made, the shared clock and every light are unchanged. -/
theorem carWantsToCross_isolated_stays_red (w : World) (self : Nat) (l : TrafficLight)
    (fuel : Nat) (h : w.lights[self]? = some l)
    (hc : l.current_colour = colour_of_light.red) (hp : l.collaborator_light = none) :
    ∃ w1, TrafficLight.carWantsToCross fuel self w = some w1 ∧
      w1.colour self = some colour_of_light.red ∧
      w1.lights = w.lights ∧
      w1.global_time = w.global_time ∧
      w1.cout = w.cout ++ [Line.wantsToCross w.global_time l.light colour_of_light.red] := by
  refine ⟨_, carWantsToCross_of_red_alone fuel self w l h hc hp, ?_, rfl, rfl, rfl⟩
  simp only [World.colour, h, Option.map_some', hc]

/-- Witness of the amended C9 at `isolatedWorld`. -/
theorem carWantsToCross_isolated_stays_red_witness :
    isolatedWorld.lights[0]? = some ⟨Time.Time3 0 0 10, "A", colour_of_light.red, none⟩ ∧
      ∃ w1, TrafficLight.carWantsToCross 0 0 isolatedWorld = some w1 ∧
        w1.colour 0 = some colour_of_light.red ∧
        w1.lights = isolatedWorld.lights ∧
        w1.global_time = isolatedWorld.global_time ∧
        w1.cout = isolatedWorld.cout ++
          [Line.wantsToCross isolatedWorld.global_time "A" colour_of_light.red] :=
  ⟨rfl,
    carWantsToCross_isolated_stays_red isolatedWorld 0
      ⟨Time.Time3 0 0 10, "A", colour_of_light.red, none⟩ 0 rfl rfl rfl⟩

/-- Claim C10: idempotence of the internal requests.  For every light, with or
without collaborator and whatever the state of the other lights,
`request_to_turn_red` on a light that is already red and
`request_to_turn_green` on a light that is already green return at once with
the whole state unchanged: no colour changes, the shared clock is the same and
nothing is printed. -/
theorem requests_idempotent (w : World) (self : Nat) (l : TrafficLight) (fuel : Nat)
    (h : w.lights[self]? = some l) :
    (l.current_colour = colour_of_light.red →
        TrafficLight.request_to_turn_red (fuel + 1) self w = some w) ∧
      (l.current_colour = colour_of_light.green →
        TrafficLight.request_to_turn_green (fuel + 1) self w = some w) :=
  ⟨request_to_turn_red_of_red fuel self w l h, request_to_turn_green_of_green fuel self w l h⟩

/-- Witness of C10 at `exchangeWorld`: the red light at address 0 asked to
turn red and the green light at address 1 asked to turn green. -/
theorem requests_idempotent_witness :
    exchangeWorld.lights[0]? = some ⟨Time.Time3 0 0 5, "A", colour_of_light.red, some 1⟩ ∧
      exchangeWorld.lights[1]? = some ⟨Time.Time3 0 0 5, "B", colour_of_light.green, some 0⟩ ∧
      TrafficLight.request_to_turn_red 1 0 exchangeWorld = some exchangeWorld ∧
      TrafficLight.request_to_turn_green 1 1 exchangeWorld = some exchangeWorld :=
  ⟨rfl, rfl,
    (requests_idempotent exchangeWorld 0
      ⟨Time.Time3 0 0 5, "A", colour_of_light.red, some 1⟩ 0 rfl).1 rfl,
    (requests_idempotent exchangeWorld 1
      ⟨Time.Time3 0 0 5, "B", colour_of_light.green, some 0⟩ 0 rfl).2 rfl⟩

/-- Case `yellow` of `request_to_turn_red`, without collaborator. -/
theorem request_to_turn_red_of_yellow_alone (fuel self : Nat) (w : World) (l : TrafficLight)
    (h : w.lights[self]? = some l) (hc : l.current_colour = colour_of_light.yellow)
    (hp : l.collaborator_light = none) :
    TrafficLight.request_to_turn_red (fuel + 1) self w =
      some (w.changeColour self l colour_of_light.red) := by
  simp only [TrafficLight.request_to_turn_red, h, hc, hp]

/-- Case `green` of `request_to_turn_red`, without collaborator. -/
theorem request_to_turn_red_of_green_alone (fuel self : Nat) (w : World) (l : TrafficLight)
    (h : w.lights[self]? = some l) (hc : l.current_colour = colour_of_light.green)
    (hp : l.collaborator_light = none) :
    TrafficLight.request_to_turn_red (fuel + 1) self w =
      some (w.changeColour self l colour_of_light.yellow) := by
  simp only [TrafficLight.request_to_turn_red, h, hc, hp]

/-- Case `red` of `request_to_turn_green`, without collaborator. -/
theorem request_to_turn_green_of_red_alone (fuel self : Nat) (w : World) (l : TrafficLight)
    (h : w.lights[self]? = some l) (hc : l.current_colour = colour_of_light.red)
    (hp : l.collaborator_light = none) :
    TrafficLight.request_to_turn_green (fuel + 1) self w =
      some (w.changeColour self l colour_of_light.yellow) := by
  simp only [TrafficLight.request_to_turn_green, h, hc, hp]

/-- The call `carWantsToCross` on a yellow or green light: only the banner. -/
theorem carWantsToCross_of_not_red (fuel self : Nat) (w : World) (l : TrafficLight)
    (h : w.lights[self]? = some l) (hc : l.current_colour ≠ colour_of_light.red) :
    TrafficLight.carWantsToCross fuel self w = some
      { w with cout := w.cout ++ [Line.wantsToCross w.global_time l.light l.current_colour] } := by
  simp only [TrafficLight.carWantsToCross, h]
  cases hcol : l.current_colour
  · exact absurd hcol hc
  · rfl
  · rfl

/-- A single transition of the light stored at `self` is a `OneTransition`. -/
theorem World.oneTransition_changeColour (w : World) (self : Nat) (l : TrafficLight)
    (c : colour_of_light) (h : w.lights[self]? = some l) :
    w.OneTransition self l c (w.changeColour self l c) :=
  ⟨World.changeColour_lookup_self w self l l c h,
    fun i hi => World.changeColour_lookup_ne w self i l c (Ne.symm hi), rfl, rfl⟩

/-- Claim C11: for every light that is yellow or green, whatever its
collaborator and the state of the other lights, `carWantsToCross` returns
having printed the crossing banner and nothing else: no light changes, the
shared clock is unchanged and no transition line is emitted. -/
theorem carWantsToCross_yellow_green_noop (w : World) (self : Nat) (l : TrafficLight)
    (fuel : Nat) (h : w.lights[self]? = some l)
    (hc : l.current_colour = colour_of_light.yellow ∨
      l.current_colour = colour_of_light.green) :
    ∃ w1, TrafficLight.carWantsToCross fuel self w = some w1 ∧
      w1.lights = w.lights ∧ w1.global_time = w.global_time ∧
      w1.cout = w.cout ++ [Line.wantsToCross w.global_time l.light l.current_colour] := by
  refine ⟨_, carWantsToCross_of_not_red fuel self w l h ?_, rfl, rfl, rfl⟩
  rcases hc with hc | hc <;> rw [hc] <;> decide

/-- Witness of C11 at `exchangeWorld`: a car at the green light at address 1. -/
theorem carWantsToCross_yellow_green_noop_witness :
    exchangeWorld.lights[1]? = some ⟨Time.Time3 0 0 5, "B", colour_of_light.green, some 0⟩ ∧
      ∃ w1, TrafficLight.carWantsToCross 0 1 exchangeWorld = some w1 ∧
        w1.lights = exchangeWorld.lights ∧ w1.global_time = exchangeWorld.global_time ∧
        w1.cout = exchangeWorld.cout ++
          [Line.wantsToCross exchangeWorld.global_time "B" colour_of_light.green] :=
  ⟨rfl,
    carWantsToCross_yellow_green_noop exchangeWorld 1
      ⟨Time.Time3 0 0 5, "B", colour_of_light.green, some 0⟩ 0 rfl (Or.inr rfl)⟩

/-- Claim C14: auto-linking.  For every light `A` that has no collaborator,
constructing a light `B` with `A` as collaborator places `B` at the next free
address, red, with collaborator `A`, and sets the collaborator of `A` to `B`;
the colour, delay and name of `A`, every other light, the shared clock and the
output are unchanged. -/
theorem TrafficLight3_auto_links (w : World) (a : Nat) (A : TrafficLight) (delay : Time)
    (light : String) (h : w.lights[a]? = some A) (hn : A.collaborator_light = none) :
    (TrafficLight.TrafficLight3 delay light a w).2 = w.lights.length ∧
      (TrafficLight.TrafficLight3 delay light a w).1.lights[w.lights.length]? =
        some ⟨delay, light, colour_of_light.red, some a⟩ ∧
      (TrafficLight.TrafficLight3 delay light a w).1.lights[a]? =
        some { A with collaborator_light := some w.lights.length } ∧
      (∀ i, i ≠ a → i < w.lights.length →
        (TrafficLight.TrafficLight3 delay light a w).1.lights[i]? = w.lights[i]?) ∧
      (TrafficLight.TrafficLight3 delay light a w).1.global_time = w.global_time ∧
      (TrafficLight.TrafficLight3 delay light a w).1.cout = w.cout := by
  have hla := World.lt_length_of_lookup h
  have hlook : (w.lights ++ [(⟨delay, light, colour_of_light.red, some a⟩ : TrafficLight)])[a]?
      = some A := by
    rw [List.getElem?_append_left hla]; exact h
  simp only [TrafficLight.TrafficLight3, hlook, hn, if_true]
  refine ⟨trivial, ?_, ?_, ?_, trivial, trivial⟩
  · rw [List.getElem?_set_ne (Nat.ne_of_lt hla)]
    simp
  · exact List.getElem?_set_self (by simp; omega)
  · intro i hi hlt
    rw [List.getElem?_set_ne (Ne.symm hi), List.getElem?_append_left hlt]

/-- Witness of C14: `B` constructed with the lone light of `isolatedWorld`. -/
theorem TrafficLight3_auto_links_witness :
    isolatedWorld.lights[0]? = some ⟨Time.Time3 0 0 10, "A", colour_of_light.red, none⟩ ∧
      (TrafficLight.TrafficLight3 (Time.Time3 0 0 5) "B" 0 isolatedWorld).2
        = isolatedWorld.lights.length ∧
      (TrafficLight.TrafficLight3 (Time.Time3 0 0 5) "B" 0 isolatedWorld).1.lights[
          isolatedWorld.lights.length]? =
        some ⟨Time.Time3 0 0 5, "B", colour_of_light.red, some 0⟩ ∧
      (TrafficLight.TrafficLight3 (Time.Time3 0 0 5) "B" 0 isolatedWorld).1.lights[0]? =
        some ⟨Time.Time3 0 0 10, "A", colour_of_light.red, some isolatedWorld.lights.length⟩ ∧
      (∀ i, i ≠ 0 → i < isolatedWorld.lights.length →
        (TrafficLight.TrafficLight3 (Time.Time3 0 0 5) "B" 0 isolatedWorld).1.lights[i]?
          = isolatedWorld.lights[i]?) ∧
      (TrafficLight.TrafficLight3 (Time.Time3 0 0 5) "B" 0 isolatedWorld).1.global_time
        = isolatedWorld.global_time ∧
      (TrafficLight.TrafficLight3 (Time.Time3 0 0 5) "B" 0 isolatedWorld).1.cout
        = isolatedWorld.cout :=
  ⟨rfl,
    TrafficLight3_auto_links isolatedWorld 0
      ⟨Time.Time3 0 0 10, "A", colour_of_light.red, none⟩ (Time.Time3 0 0 5) "B" rfl rfl⟩

/-- Claim C17: the documented clock examples and their rendering without
zero-padding: `Time(0,0,75)` is 0 hours, 1 minute, 15 seconds and is written
`0:1:15`; `Time(0,63,0)` is 1 hour, 3 minutes, 0 seconds and is written
`1:3:0`; in general `operator<<` appends to the stream the decimal hours,
minutes and seconds joined by colons. -/
theorem Time_examples_and_rendering :
    Time.Time3 0 0 75 = { theHour := 0, theMins := 1, theSecs := 15 } ∧
      Time.output "" (Time.Time3 0 0 75) = "0:1:15" ∧
      Time.Time3 0 63 0 = { theHour := 1, theMins := 3, theSecs := 0 } ∧
      Time.output "" (Time.Time3 0 63 0) = "1:3:0" ∧
      ∀ (stream : String) (t : Time), Time.output stream t = stream ++ t.renderingSpec := by
  refine ⟨by decide, by decide, by decide, by decide, ?_⟩
  intro stream t
  simp [Time.output, Time.renderingSpec, String.intercalate, String.intercalate.go,
    String.append_assoc]

/-- Claim C18: a light without collaborator skips every collaborator-directed
branch and makes exactly one transition per internal request:
`request_to_turn_red` takes it from green to yellow (not red) and from yellow
to red, `request_to_turn_green` takes it from red to yellow (not green) and
from yellow to green, each time advancing the shared clock by one delay of that
light, printing one transition line and leaving every other light alone. -/
theorem isolated_requests_one_transition (w : World) (self : Nat) (l : TrafficLight)
    (fuel : Nat) (h : w.lights[self]? = some l) (hp : l.collaborator_light = none) :
    (l.current_colour = colour_of_light.green →
        ∃ w1, TrafficLight.request_to_turn_red (fuel + 1) self w = some w1 ∧
          w.OneTransition self l colour_of_light.yellow w1) ∧
      (l.current_colour = colour_of_light.yellow →
        ∃ w1, TrafficLight.request_to_turn_red (fuel + 1) self w = some w1 ∧
          w.OneTransition self l colour_of_light.red w1) ∧
      (l.current_colour = colour_of_light.red →
        ∃ w1, TrafficLight.request_to_turn_green (fuel + 1) self w = some w1 ∧
          w.OneTransition self l colour_of_light.yellow w1) ∧
      (l.current_colour = colour_of_light.yellow →
        ∃ w1, TrafficLight.request_to_turn_green (fuel + 1) self w = some w1 ∧
          w.OneTransition self l colour_of_light.green w1) :=
  ⟨fun hc => ⟨_, request_to_turn_red_of_green_alone fuel self w l h hc hp,
      World.oneTransition_changeColour w self l _ h⟩,
    fun hc => ⟨_, request_to_turn_red_of_yellow_alone fuel self w l h hc hp,
      World.oneTransition_changeColour w self l _ h⟩,
    fun hc => ⟨_, request_to_turn_green_of_red_alone fuel self w l h hc hp,
      World.oneTransition_changeColour w self l _ h⟩,
    fun hc => ⟨_, request_to_turn_green_of_yellow fuel self w l h hc,
      World.oneTransition_changeColour w self l _ h⟩⟩

/-- Witness of C18: the lone light in each of the four starting colours. -/
theorem isolated_requests_one_transition_witness :
    (∃ w1, TrafficLight.request_to_turn_red 1 0 (loneWorld colour_of_light.green) = some w1 ∧
        (loneWorld colour_of_light.green).OneTransition 0
          ⟨Time.Time3 0 0 10, "A", colour_of_light.green, none⟩ colour_of_light.yellow w1) ∧
      (∃ w1, TrafficLight.request_to_turn_red 1 0 (loneWorld colour_of_light.yellow) = some w1 ∧
        (loneWorld colour_of_light.yellow).OneTransition 0
          ⟨Time.Time3 0 0 10, "A", colour_of_light.yellow, none⟩ colour_of_light.red w1) ∧
      (∃ w1, TrafficLight.request_to_turn_green 1 0 (loneWorld colour_of_light.red) = some w1 ∧
        (loneWorld colour_of_light.red).OneTransition 0
          ⟨Time.Time3 0 0 10, "A", colour_of_light.red, none⟩ colour_of_light.yellow w1) ∧
      (∃ w1, TrafficLight.request_to_turn_green 1 0 (loneWorld colour_of_light.yellow) = some w1 ∧
        (loneWorld colour_of_light.yellow).OneTransition 0
          ⟨Time.Time3 0 0 10, "A", colour_of_light.yellow, none⟩ colour_of_light.green w1) :=
  ⟨(isolated_requests_one_transition (loneWorld colour_of_light.green) 0
      ⟨Time.Time3 0 0 10, "A", colour_of_light.green, none⟩ 0 rfl rfl).1 rfl,
    (isolated_requests_one_transition (loneWorld colour_of_light.yellow) 0
      ⟨Time.Time3 0 0 10, "A", colour_of_light.yellow, none⟩ 0 rfl rfl).2.1 rfl,
    (isolated_requests_one_transition (loneWorld colour_of_light.red) 0
      ⟨Time.Time3 0 0 10, "A", colour_of_light.red, none⟩ 0 rfl rfl).2.2.1 rfl,
    (isolated_requests_one_transition (loneWorld colour_of_light.yellow) 0
      ⟨Time.Time3 0 0 10, "A", colour_of_light.yellow, none⟩ 0 rfl rfl).2.2.2 rfl⟩

/-- Counting transition lines distributes over concatenation. -/
theorem transitionCount_append (xs ys : List Line) :
    transitionCount (xs ++ ys) = transitionCount xs + transitionCount ys := by
  induction xs with
  | nil => simp [transitionCount]
  | cons x xs ih =>
    cases x
    · exact ih
    · show transitionCount (xs ++ ys) + 1 = transitionCount xs + 1 + transitionCount ys
      omega

/-- Being a linked pair does not depend on the order of the two lights. -/
theorem World.Linked.symm {w : World} {a b : Nat} {A B : TrafficLight}
    (h : w.Linked a b A B) : w.Linked b a B A :=
  ⟨Ne.symm h.1, h.2.2.1, h.2.1, h.2.2.2.2, h.2.2.2.1⟩

/-- In a linked pair, whatever the two colours, each of the three calls on
the first light returns once four nested requests are allowed, having made at
most four transitions. -/
theorem pair_calls_bound (w : World) (a b : Nat) (A B : TrafficLight) (fuel : Nat)
    (hl : w.Linked a b A B) :
    (∃ w1, TrafficLight.request_to_turn_red (fuel + 4) a w = some w1 ∧
        transitionCount w1.cout ≤ transitionCount w.cout + 4) ∧
      (∃ w1, TrafficLight.request_to_turn_green (fuel + 4) a w = some w1 ∧
        transitionCount w1.cout ≤ transitionCount w.cout + 4) ∧
      (∃ w1, TrafficLight.carWantsToCross (fuel + 4) a w = some w1 ∧
        transitionCount w1.cout ≤ transitionCount w.cout + 4) := by
  obtain ⟨hab, ha, hb, hAc, hBc⟩ := hl
  have hla := World.lt_length_of_lookup ha
  have hlb := World.lt_length_of_lookup hb
  have hba : b ≠ a := fun h => hab h.symm
  obtain ⟨dA, nA, cA, pA⟩ := A
  obtain ⟨dB, nB, cB, pB⟩ := B
  simp only at hAc hBc
  subst hAc hBc
  refine ⟨?_, ?_, ?_⟩ <;> cases cA <;> cases cB <;>
    simp only [TrafficLight.carWantsToCross, TrafficLight.request_to_turn_red,
      TrafficLight.request_to_turn_green,
      World.changeColour, List.getElem?_set, List.length_set, ha, hb, hab, hba, hla, hlb,
      if_true, if_false, Option.some.injEq, exists_eq_left', transitionCount_append,
      transitionCount, reduceCtorEq] <;> omega

/-- Claim C12: the cascade terminates within the fixed 4-hop bound.  For
every mutually linked pair, in any of the nine colour combinations, a call of
`request_to_turn_red`, of `request_to_turn_green` or of `carWantsToCross` on
either light returns (four nested requests suffice) after at most four
transitions in total. -/
theorem cascade_within_four_hops (w : World) (a b : Nat) (A B : TrafficLight) (fuel x : Nat)
    (hl : w.Linked a b A B) (hx : x = a ∨ x = b) (hf : 4 ≤ fuel) :
    (∃ w1, TrafficLight.request_to_turn_red fuel x w = some w1 ∧
        transitionCount w1.cout ≤ transitionCount w.cout + 4) ∧
      (∃ w1, TrafficLight.request_to_turn_green fuel x w = some w1 ∧
        transitionCount w1.cout ≤ transitionCount w.cout + 4) ∧
      (∃ w1, TrafficLight.carWantsToCross fuel x w = some w1 ∧
        transitionCount w1.cout ≤ transitionCount w.cout + 4) := by
  obtain ⟨k, rfl⟩ : ∃ k, fuel = k + 4 := ⟨fuel - 4, by omega⟩
  rcases hx with rfl | rfl
  · exact pair_calls_bound w x b A B k hl
  · exact pair_calls_bound w x a B A k hl.symm

/-- Witness of C12 at `exchangeWorld`, for calls on the green light `B`. -/
theorem cascade_within_four_hops_witness :
    exchangeWorld.Linked 0 1
        ⟨Time.Time3 0 0 5, "A", colour_of_light.red, some 1⟩
        ⟨Time.Time3 0 0 5, "B", colour_of_light.green, some 0⟩ ∧
      (∃ w1, TrafficLight.request_to_turn_red 4 1 exchangeWorld = some w1 ∧
        transitionCount w1.cout ≤ transitionCount exchangeWorld.cout + 4) ∧
      (∃ w1, TrafficLight.request_to_turn_green 4 1 exchangeWorld = some w1 ∧
        transitionCount w1.cout ≤ transitionCount exchangeWorld.cout + 4) ∧
      (∃ w1, TrafficLight.carWantsToCross 4 1 exchangeWorld = some w1 ∧
        transitionCount w1.cout ≤ transitionCount exchangeWorld.cout + 4) :=
  ⟨by decide,
    cascade_within_four_hops exchangeWorld 0 1
      ⟨Time.Time3 0 0 5, "A", colour_of_light.red, some 1⟩
      ⟨Time.Time3 0 0 5, "B", colour_of_light.green, some 0⟩ 4 1 (by decide) (Or.inr rfl)
      (by decide)⟩

/-- Induction along the request chain: a relation between states that holds
of every state with itself, and that can be extended backwards over one
transition of a stored light, holds between the state before and the state
after every request that returns. -/
theorem requests_induction (P : World → World → Prop) (hrefl : ∀ w, P w w)
    (hstep : ∀ (w : World) (self : Nat) (l : TrafficLight) (c : colour_of_light) (w1 : World),
      w.lights[self]? = some l → P (w.changeColour self l c) w1 → P w w1) (fuel : Nat) :
    (∀ self w w1, TrafficLight.request_to_turn_red fuel self w = some w1 → P w w1) ∧
      (∀ self w w1, TrafficLight.request_to_turn_green fuel self w = some w1 → P w w1) := by
  induction fuel with
  | zero =>
    constructor <;> intro self w w1 h <;>
      simp only [TrafficLight.request_to_turn_red, TrafficLight.request_to_turn_green,
        reduceCtorEq] at h
  | succ n ih =>
    constructor
    · intro self w w1 h
      simp only [TrafficLight.request_to_turn_red] at h
      cases hl : w.lights[self]? with
      | none => simp only [hl, reduceCtorEq] at h
      | some l =>
        simp only [hl] at h
        cases hc : l.current_colour <;> simp only [hc] at h
        · cases h; exact hrefl w
        · cases hp : l.collaborator_light with
          | none =>
            simp only [hp, Option.some.injEq] at h
            subst h
            exact hstep w self l _ _ hl (hrefl _)
          | some c =>
            simp only [hp] at h
            exact hstep w self l _ _ hl (ih.2 _ _ _ h)
        · cases hp : l.collaborator_light with
          | none =>
            simp only [hp, Option.some.injEq] at h
            subst h
            exact hstep w self l _ _ hl (hrefl _)
          | some c =>
            simp only [hp] at h
            exact hstep w self l _ _ hl (ih.2 _ _ _ h)
    · intro self w w1 h
      simp only [TrafficLight.request_to_turn_green] at h
      cases hl : w.lights[self]? with
      | none => simp only [hl, reduceCtorEq] at h
      | some l =>
        simp only [hl] at h
        cases hc : l.current_colour <;> simp only [hc] at h
        · cases hp : l.collaborator_light with
          | none =>
            simp only [hp, Option.some.injEq] at h
            subst h
            exact hstep w self l _ _ hl (hrefl _)
          | some c =>
            simp only [hp] at h
            exact hstep w self l _ _ hl (ih.1 _ _ _ h)
        · simp only [Option.some.injEq] at h
          subst h
          exact hstep w self l _ _ hl (hrefl _)
        · cases h; exact hrefl w

/-- The same induction for `carWantsToCross`: the relation holds between the
state right after the banner and the state in which the call returns. -/
theorem carWantsToCross_induction (P : World → World → Prop) (hrefl : ∀ w, P w w)
    (hstep : ∀ (w : World) (self : Nat) (l : TrafficLight) (c : colour_of_light) (w1 : World),
      w.lights[self]? = some l → P (w.changeColour self l c) w1 → P w w1)
    (fuel self : Nat) (w w1 : World) (h : TrafficLight.carWantsToCross fuel self w = some w1) :
    ∃ l, w.lights[self]? = some l ∧
      P { w with cout := w.cout ++ [Line.wantsToCross w.global_time l.light l.current_colour] }
        w1 := by
  simp only [TrafficLight.carWantsToCross] at h
  cases hl : w.lights[self]? with
  | none => simp only [hl, reduceCtorEq] at h
  | some l =>
    refine ⟨l, rfl, ?_⟩
    simp only [hl] at h
    cases hc : l.current_colour <;> simp only [hc] at h
    · cases hp : l.collaborator_light with
      | none =>
        simp only [hp, Option.some.injEq] at h
        subst h
        exact hrefl _
      | some c =>
        simp only [hp] at h
        cases hcl : w.lights[c]? with
        | none => simp only [hcl, reduceCtorEq] at h
        | some cl =>
          simp only [hcl] at h
          by_cases hg : cl.current_colour = colour_of_light.green
          · simp only [hg, if_true] at h
            exact (requests_induction P hrefl hstep fuel).1 _ _ _ h
          · simp only [hg, if_false] at h
            by_cases hr : cl.current_colour = colour_of_light.red
            · simp only [hr, if_true, Option.some.injEq] at h
              subst h
              refine hstep _ self l _ _ hl (hstep _ self _ _ _ ?_ (hrefl _))
              rw [← hp]
              exact World.changeColour_lookup_self _ self l l _ hl
            · simp only [hr, if_false, Option.some.injEq] at h
              subst h
              exact hrefl _
    · simp only [Option.some.injEq] at h
      subst h
      exact hrefl _
    · simp only [Option.some.injEq] at h
      subst h
      exact hrefl _

/-- A transition changes the colour only: the fixed parts stay. -/
theorem World.fixedPart_changeColour (w : World) (self : Nat) (l : TrafficLight)
    (c : colour_of_light) (h : w.lights[self]? = some l) :
    (w.changeColour self l c).lights.map TrafficLight.fixedPart
      = w.lights.map TrafficLight.fixedPart := by
  apply List.ext_getElem?
  intro i
  simp only [World.changeColour, List.getElem?_map, List.getElem?_set]
  by_cases hi : self = i
  · subst hi
    simp only [if_true, World.lt_length_of_lookup h, h, Option.map_some']
    rfl
  · simp only [hi, if_false]

/-- No request changes the delay, the name or the collaborator of any light. -/
theorem requests_fixedPart (fuel : Nat) :
    (∀ self w w1, TrafficLight.request_to_turn_red fuel self w = some w1 →
        w1.lights.map TrafficLight.fixedPart = w.lights.map TrafficLight.fixedPart) ∧
      (∀ self w w1, TrafficLight.request_to_turn_green fuel self w = some w1 →
        w1.lights.map TrafficLight.fixedPart = w.lights.map TrafficLight.fixedPart) :=
  requests_induction
    (fun w w1 => w1.lights.map TrafficLight.fixedPart = w.lights.map TrafficLight.fixedPart)
    (fun _ => rfl)
    (fun w self l c _ hl h => h.trans (World.fixedPart_changeColour w self l c hl)) fuel

/-- A call of `carWantsToCross` changes no delay, name or collaborator. -/
theorem carWantsToCross_fixedPart (fuel self : Nat) (w w1 : World)
    (h : TrafficLight.carWantsToCross fuel self w = some w1) :
    w1.lights.map TrafficLight.fixedPart = w.lights.map TrafficLight.fixedPart := by
  obtain ⟨l, -, hP⟩ := carWantsToCross_induction
    (fun w w1 => w1.lights.map TrafficLight.fixedPart = w.lights.map TrafficLight.fixedPart)
    (fun _ => rfl)
    (fun w self l c _ hl h => h.trans (World.fixedPart_changeColour w self l c hl))
    fuel self w w1 h
  exact hP

/-- A collaborator that is set is the collaborator of a stored light. -/
theorem World.lookup_of_collaborator {w : World} {i c : Nat}
    (h : w.collaborator i = some (some c)) :
    ∃ l, w.lights[i]? = some l ∧ l.collaborator_light = some c := by
  simp only [World.collaborator] at h
  cases hl : w.lights[i]? with
  | none => simp only [hl, Option.map_none', reduceCtorEq] at h
  | some l =>
    simp only [hl, Option.map_some', Option.some.injEq] at h
    exact ⟨l, rfl, h⟩

/-- The two-argument constructor leaves a collaborator that is set as it is. -/
theorem TrafficLight2_collaborator (w : World) (delay : Time) (light : String) (i c : Nat)
    (h : w.collaborator i = some (some c)) :
    (TrafficLight.TrafficLight2 delay light w).1.collaborator i = some (some c) := by
  obtain ⟨l, hl, hc⟩ := World.lookup_of_collaborator h
  simp only [TrafficLight.TrafficLight2, World.collaborator,
    List.getElem?_append_left (World.lt_length_of_lookup hl), hl, Option.map_some', hc]

/-- The three-argument constructor leaves a collaborator that is set as it is. -/
theorem TrafficLight3_collaborator (w : World) (delay : Time) (light : String)
    (collab_light i c : Nat) (h : w.collaborator i = some (some c)) :
    (TrafficLight.TrafficLight3 delay light collab_light w).1.collaborator i
      = some (some c) := by
  obtain ⟨l, hl, hc⟩ := World.lookup_of_collaborator h
  have hlt := World.lt_length_of_lookup hl
  have happ : (w.lights ++ [(⟨delay, light, colour_of_light.red, some collab_light⟩ :
      TrafficLight)])[i]? = some l := by
    rw [List.getElem?_append_left hlt]; exact hl
  simp only [TrafficLight.TrafficLight3]
  split
  · rename_i cl hcl
    split
    · rename_i hnone
      have hne : collab_light ≠ i := by
        intro heq
        subst heq
        rw [happ] at hcl
        cases hcl
        rw [hc] at hnone
        cases hnone
      simp only [World.collaborator, List.getElem?_set_ne hne, happ, Option.map_some', hc]
    · simp only [World.collaborator, happ, Option.map_some', hc]
  · simp only [World.collaborator, happ, Option.map_some', hc]

/-- Claim C15: a collaborator reference is never reassigned once set.  For
every light whose collaborator is set, neither constructor changes it when a
later light is built; and no call of `carWantsToCross`, `request_to_turn_red`
or `request_to_turn_green` that returns, and no `setTheTime`, changes the
delay, the name or the collaborator of any light. -/
theorem collaborator_never_reassigned (w : World) :
    (∀ i c, w.collaborator i = some (some c) →
        (∀ delay light,
          (TrafficLight.TrafficLight2 delay light w).1.collaborator i = some (some c)) ∧
        (∀ delay light collab_light,
          (TrafficLight.TrafficLight3 delay light collab_light w).1.collaborator i
            = some (some c))) ∧
      (∀ fuel self w1,
        (TrafficLight.carWantsToCross fuel self w = some w1 ∨
          TrafficLight.request_to_turn_red fuel self w = some w1 ∨
          TrafficLight.request_to_turn_green fuel self w = some w1) →
        w1.lights.map TrafficLight.fixedPart = w.lights.map TrafficLight.fixedPart) ∧
      (∀ new_time, (TrafficLight.setTheTime new_time w).lights = w.lights) := by
  refine ⟨fun i c h => ⟨fun delay light => TrafficLight2_collaborator w delay light i c h,
    fun delay light collab_light => TrafficLight3_collaborator w delay light collab_light i c h⟩,
    ?_, fun _ => rfl⟩
  intro fuel self w1 h
  rcases h with h | h | h
  · exact carWantsToCross_fixedPart fuel self w w1 h
  · exact (requests_fixedPart fuel).1 self w w1 h
  · exact (requests_fixedPart fuel).2 self w w1 h

/-- Witness of C15 at `bothRedWorld`: the collaborator of `A` stays `B` when a
third light is built with `A` as collaborator, and the crossing of a car at
`A` keeps all fixed parts. -/
theorem collaborator_never_reassigned_witness :
    bothRedWorld.collaborator 0 = some (some 1) ∧
      (TrafficLight.TrafficLight3 (Time.Time3 0 0 10) "C" 0 bothRedWorld).1.collaborator 0
        = some (some 1) ∧
      TrafficLight.carWantsToCross 0 0 bothRedWorld = some
        { lights := [⟨Time.Time3 0 0 10, "A", colour_of_light.green, some 1⟩,
                     ⟨Time.Time3 0 0 10, "B", colour_of_light.red, some 0⟩],
          global_time := Time.Time3 0 0 20,
          cout := [Line.wantsToCross (Time.Time3 0 0 0) "A" colour_of_light.red,
                   Line.changes (Time.Time3 0 0 10) "A" colour_of_light.yellow,
                   Line.changes (Time.Time3 0 0 20) "A" colour_of_light.green] } ∧
      [(⟨Time.Time3 0 0 10, "A", colour_of_light.green, some 1⟩ : TrafficLight),
        ⟨Time.Time3 0 0 10, "B", colour_of_light.red, some 0⟩].map TrafficLight.fixedPart
        = bothRedWorld.lights.map TrafficLight.fixedPart :=
  ⟨by decide,
    ((collaborator_never_reassigned bothRedWorld).1 0 1 (by decide)).2 (Time.Time3 0 0 10) "C" 0,
    by decide,
    (collaborator_never_reassigned bothRedWorld).2.1 0 0
      { lights := [⟨Time.Time3 0 0 10, "A", colour_of_light.green, some 1⟩,
                   ⟨Time.Time3 0 0 10, "B", colour_of_light.red, some 0⟩],
        global_time := Time.Time3 0 0 20,
        cout := [Line.wantsToCross (Time.Time3 0 0 0) "A" colour_of_light.red,
                 Line.changes (Time.Time3 0 0 10) "A" colour_of_light.yellow,
                 Line.changes (Time.Time3 0 0 20) "A" colour_of_light.green] }
      (Or.inl (by decide))⟩

/-- The clock trace of a list of transitions only reads delays and names,
which a transition does not change. -/
theorem ClockTrace_set (lights : List TrafficLight) (self : Nat) (l : TrafficLight)
    (c : colour_of_light) (h : lights[self]? = some l)
    (steps : List (Nat × colour_of_light)) :
    ∀ (t : Time) (lines : List Line) (t1 : Time),
      ClockTrace (lights.set self { l with current_colour := c }) t steps lines t1 →
        ClockTrace lights t steps lines t1 := by
  have hlt : self < lights.length := by
    by_contra hn
    rw [List.getElem?_eq_none (by omega)] at h
    cases h
  induction steps with
  | nil =>
    intro t lines t1 hT
    cases lines with
    | nil => simpa only [ClockTrace] using hT
    | cons x xs => simp only [ClockTrace] at hT
  | cons s steps ih =>
    intro t lines t1 hT
    obtain ⟨i, c1⟩ := s
    cases lines with
    | nil => simp only [ClockTrace] at hT
    | cons x xs =>
      simp only [ClockTrace] at hT ⊢
      by_cases hi : self = i
      · subst hi
        rw [List.getElem?_set_self hlt] at hT
        rw [h]
        exact ⟨hT.1, ih _ _ _ hT.2⟩
      · rw [List.getElem?_set_ne hi] at hT
        cases hl : lights[i]? with
        | none => simp only [hl] at hT
        | some l1 =>
          simp only [hl] at hT ⊢
          exact ⟨hT.1, ih _ _ _ hT.2⟩

/-- A clock trace without lines leaves the clock where it was. -/
theorem ClockTrace_nil_lines (lights : List TrafficLight) (t : Time)
    (steps : List (Nat × colour_of_light)) (t1 : Time)
    (h : ClockTrace lights t steps [] t1) : t1 = t := by
  cases steps with
  | nil => simpa only [ClockTrace] using h
  | cons s steps => simp only [ClockTrace] at h

/-- A state is traced to itself, by no transition. -/
theorem World.tracedTo_refl (w : World) : w.TracedTo w :=
  ⟨[], [], (List.append_nil _).symm, by simp only [ClockTrace]⟩

/-- One transition in front of a trace gives a trace. -/
theorem World.tracedTo_step (w : World) (self : Nat) (l : TrafficLight) (c : colour_of_light)
    (w1 : World) (hl : w.lights[self]? = some l)
    (h : (w.changeColour self l c).TracedTo w1) : w.TracedTo w1 := by
  obtain ⟨steps, new, hout, hT⟩ := h
  refine ⟨(self, c) :: steps,
    Line.changes (w.global_time.add l.delay_time) l.light c :: new, ?_, ?_⟩
  · rw [hout]
    simp only [World.changeColour, List.append_assoc, List.singleton_append]
  · simp only [ClockTrace, hl]
    exact ⟨trivial, ClockTrace_set w.lights self l c hl steps _ _ _ hT⟩

/-- Claim C16 as stated fails in its last part: in the linked pair of red
lights with delay 0:0:0, `carWantsToCross` on `A` emits two transitions and the
shared clock is what it was. -/
theorem zero_delay_transitions_keep_clock :
    ∃ w1, TrafficLight.carWantsToCross 0 0 zeroDelayWorld = some w1 ∧
      w1.global_time = zeroDelayWorld.global_time ∧
      transitionCount w1.cout = transitionCount zeroDelayWorld.cout + 2 :=
  ⟨_, rfl, by decide, by decide⟩

/-- Claim C16, amended: the shared clock is mutated only by transitions, one
delay each.  Whenever a call of `request_to_turn_red`, `request_to_turn_green`
or `carWantsToCross` returns, the lines it printed (after the banner, for
`carWantsToCross`) are the lines of a list of transitions, each stamped with
the clock after adding the delay of the light that makes the transition, and
the clock afterwards is the clock before with those delays added in that
order; in particular the clock is unchanged when no transition is emitted. -/
theorem clock_advances_once_per_transition (w : World) (fuel self : Nat) (w1 : World) :
    ((TrafficLight.request_to_turn_red fuel self w = some w1 ∨
        TrafficLight.request_to_turn_green fuel self w = some w1) →
      ∃ steps new, w1.cout = w.cout ++ new ∧
        ClockTrace w.lights w.global_time steps new w1.global_time ∧
        (new = [] → w1.global_time = w.global_time)) ∧
      (TrafficLight.carWantsToCross fuel self w = some w1 →
        ∃ l steps new, w.lights[self]? = some l ∧
          w1.cout = w.cout ++
            Line.wantsToCross w.global_time l.light l.current_colour :: new ∧
          ClockTrace w.lights w.global_time steps new w1.global_time ∧
          (new = [] → w1.global_time = w.global_time)) := by
  constructor
  · intro h
    have hP : w.TracedTo w1 := by
      rcases h with h | h
      · exact (requests_induction World.TracedTo World.tracedTo_refl World.tracedTo_step
          fuel).1 self w w1 h
      · exact (requests_induction World.TracedTo World.tracedTo_refl World.tracedTo_step
          fuel).2 self w w1 h
    obtain ⟨steps, new, hout, hT⟩ := hP
    refine ⟨steps, new, hout, hT, ?_⟩
    intro hnil
    subst hnil
    exact ClockTrace_nil_lines _ _ _ _ hT
  · intro h
    obtain ⟨l, hl, steps, new, hout, hT⟩ :=
      carWantsToCross_induction World.TracedTo World.tracedTo_refl World.tracedTo_step
        fuel self w w1 h
    refine ⟨l, steps, new, hl, ?_, hT, ?_⟩
    · rw [hout]
      simp only [List.append_assoc, List.singleton_append]
    · intro hnil
      subst hnil
      exact ClockTrace_nil_lines _ _ _ _ hT

/-- Witness of the amended C16: the exchange in `exchangeWorld`. -/
theorem clock_advances_once_per_transition_witness :
    TrafficLight.carWantsToCross 4 0 exchangeWorld = some exchangedWorld ∧
      ∃ l steps new, exchangeWorld.lights[0]? = some l ∧
        exchangedWorld.cout = exchangeWorld.cout ++
          Line.wantsToCross exchangeWorld.global_time l.light l.current_colour :: new ∧
        ClockTrace exchangeWorld.lights exchangeWorld.global_time steps new
          exchangedWorld.global_time ∧
        (new = [] → exchangedWorld.global_time = exchangeWorld.global_time) :=
  ⟨by decide,
    (clock_advances_once_per_transition exchangeWorld 4 0 exchangedWorld).2 (by decide)⟩

/-- A light that has an entry in the collaborator table is stored. -/
theorem World.lt_length_of_collaborator {w : World} {i : Nat} {x : Option Nat}
    (h : w.collaborator i = some x) : i < w.lights.length := by
  by_contra hn
  simp only [World.collaborator, List.getElem?_eq_none (show w.lights.length ≤ i by omega),
    Option.map_none', reduceCtorEq] at h

/-- The collaborator table after the two-argument constructor. -/
theorem TrafficLight2_collaborator_eq (w : World) (delay : Time) (light : String) (i : Nat) :
    (TrafficLight.TrafficLight2 delay light w).1.collaborator i =
      if i < w.lights.length then w.collaborator i
      else if i = w.lights.length then some none else none := by
  simp only [TrafficLight.TrafficLight2, World.collaborator]
  by_cases h1 : i < w.lights.length
  · simp only [h1, if_true, List.getElem?_append_left h1]
  · simp only [h1, if_false]
    by_cases h2 : i = w.lights.length
    · subst h2
      simp
    · simp only [h2, if_false]
      rw [List.getElem?_eq_none (by simp; omega)]
      rfl

/-- The collaborator table after the three-argument constructor, when the
collaborator passed has no collaborator yet. -/
theorem TrafficLight3_collaborator_eq (w : World) (delay : Time) (light : String)
    (c i : Nat) (hfree : w.collaborator c = some none) :
    (TrafficLight.TrafficLight3 delay light c w).1.collaborator i =
      if i = c then some (some w.lights.length)
      else if i < w.lights.length then w.collaborator i
      else if i = w.lights.length then some (some c) else none := by
  have hc := World.lt_length_of_collaborator hfree
  simp only [World.collaborator] at hfree
  cases hl : w.lights[c]? with
  | none => simp only [hl, Option.map_none', reduceCtorEq] at hfree
  | some C =>
    simp only [hl, Option.map_some', Option.some.injEq] at hfree
    have happ : (w.lights ++ [(⟨delay, light, colour_of_light.red, some c⟩ :
        TrafficLight)])[c]? = some C := by
      rw [List.getElem?_append_left hc]; exact hl
    simp only [TrafficLight.TrafficLight3, happ, hfree, if_true, World.collaborator]
    by_cases h0 : i = c
    · subst h0
      simp only [if_true]
      rw [List.getElem?_set_self (by simp; omega)]
      rfl
    · simp only [h0, if_false]
      rw [List.getElem?_set_ne (Ne.symm h0)]
      by_cases h1 : i < w.lights.length
      · simp only [h1, if_true, List.getElem?_append_left h1]
      · simp only [h1, if_false]
        by_cases h2 : i = w.lights.length
        · subst h2
          simp
        · simp only [h2, if_false]
          rw [List.getElem?_eq_none (by simp; omega)]
          rfl

/-- The two-argument constructor keeps the collaboration relation symmetric. -/
theorem TrafficLight2_symmetric (w : World) (delay : Time) (light : String)
    (h : w.Symmetric) : (TrafficLight.TrafficLight2 delay light w).1.Symmetric := by
  intro i j hij
  rw [TrafficLight2_collaborator_eq] at hij ⊢
  by_cases h1 : i < w.lights.length
  · simp only [h1, if_true] at hij
    have hji := h i j hij
    simp only [World.lt_length_of_collaborator hji, if_true]
    exact hji
  · simp only [h1, if_false] at hij
    by_cases h2 : i = w.lights.length
    · simp only [h2, if_true, Option.some.injEq, reduceCtorEq] at hij
    · simp only [h2, if_false, reduceCtorEq] at hij

/-- The three-argument constructor keeps the collaboration relation symmetric
when the collaborator passed has no collaborator yet. -/
theorem TrafficLight3_symmetric (w : World) (delay : Time) (light : String) (c : Nat)
    (h : w.Symmetric) (hfree : w.collaborator c = some none) :
    (TrafficLight.TrafficLight3 delay light c w).1.Symmetric := by
  have hc := World.lt_length_of_collaborator hfree
  intro i j hij
  rw [TrafficLight3_collaborator_eq w delay light c _ hfree] at hij ⊢
  by_cases h0 : i = c
  · subst h0
    simp only [if_true, Option.some.injEq] at hij
    subst hij
    simp only [Nat.ne_of_gt hc, if_false, Nat.lt_irrefl, if_true]
  · simp only [h0, if_false] at hij
    by_cases h1 : i < w.lights.length
    · simp only [h1, if_true] at hij
      have hji := h i j hij
      have hjc : j ≠ c := by
        intro hjc
        subst hjc
        rw [hfree] at hji
        cases hji
      simp only [hjc, if_false, World.lt_length_of_collaborator hji, if_true]
      exact hji
    · simp only [h1, if_false] at hij
      by_cases h2 : i = w.lights.length
      · subst h2
        simp only [if_true, Option.some.injEq] at hij
        subst hij
        simp only [if_true]
      · simp only [h2, if_false, reduceCtorEq] at hij

/-- Symmetry is kept along a sequence of constructor calls whose collaborator
arguments are free. -/
theorem constructAll_symmetric (ks : List Construction) :
    ∀ w : World, w.Symmetric → FreeCollaborators ks w → (constructAll ks w).Symmetric := by
  induction ks with
  | nil => intro w h _; exact h
  | cons k ks ih =>
    intro w h hfree
    cases k with
    | alone delay light =>
      exact ih _ (TrafficLight2_symmetric w delay light h) hfree
    | withCollaborator delay light c =>
      exact ih _ (TrafficLight3_symmetric w delay light c h hfree.1) hfree.2

/-- Claim C13 as stated fails: after `A` alone, `B` with `A` and `C` with `A`,
each collaborator argument being a previously constructed light, the light `C`
has collaborator `A` while the collaborator of `A` is `B`. -/
theorem three_lights_not_symmetric :
    PreviouslyConstructed threeLights World.init ∧
      (constructAll threeLights World.init).collaborator 2 = some (some 0) ∧
      (constructAll threeLights World.init).collaborator 0 = some (some 1) ∧
      ¬ (constructAll threeLights World.init).Symmetric := by
  refine ⟨⟨by decide, by decide, trivial⟩, by decide, by decide, ?_⟩
  intro h
  have h20 := h 2 0 (by decide)
  revert h20
  decide

/-- Claim C13, amended: the collaboration relation is symmetric after every
sequence of light constructions, by either constructor, in which each
collaborator argument is a previously constructed light that has no
collaborator yet: whenever a light `A` has collaborator `B`, the collaborator
of `B` is `A`. -/
theorem constructions_symmetric (ks : List Construction)
    (hfree : FreeCollaborators ks World.init) :
    ∀ i j, (constructAll ks World.init).collaborator i = some (some j) →
      (constructAll ks World.init).collaborator j = some (some i) := by
  have h0 : World.init.Symmetric := by
    intro i j h
    simp [World.collaborator, World.init] at h
  exact constructAll_symmetric ks World.init h0 hfree

/-- Witness of the amended C13: the two pairs of `twoPairs`. -/
theorem constructions_symmetric_witness :
    FreeCollaborators twoPairs World.init ∧
      ∀ i j, (constructAll twoPairs World.init).collaborator i = some (some j) →
        (constructAll twoPairs World.init).collaborator j = some (some i) :=
  ⟨⟨by decide, by decide, trivial⟩,
    constructions_symmetric twoPairs ⟨by decide, by decide, trivial⟩⟩

/-- The last state of a history that starts with `v` does not depend on the
state before it. -/
theorem getLastD_cons_eq (v w : World) (h : List World) :
    (v :: h).getLastD w = h.getLastD v := by
  cases h <;> rfl

/-- The last state listed by the instrumented requests is the state the
requests return, and they return together. -/
theorem requests_states_last (fuel : Nat) :
    (∀ self w, (TrafficLight.request_to_turn_red_states fuel self w).map
        (fun h => h.getLastD w) = TrafficLight.request_to_turn_red fuel self w) ∧
      (∀ self w, (TrafficLight.request_to_turn_green_states fuel self w).map
        (fun h => h.getLastD w) = TrafficLight.request_to_turn_green fuel self w) := by
  induction fuel with
  | zero =>
    constructor <;> intro self w <;>
      simp only [TrafficLight.request_to_turn_red_states, TrafficLight.request_to_turn_red,
        TrafficLight.request_to_turn_green_states, TrafficLight.request_to_turn_green,
        Option.map_none']
  | succ n ih =>
    constructor
    · intro self w
      simp only [TrafficLight.request_to_turn_red_states, TrafficLight.request_to_turn_red]
      cases hl : w.lights[self]? with
      | none => rfl
      | some l =>
        simp only []
        cases hc : l.current_colour <;> simp only []
        · rfl
        · cases hp : l.collaborator_light with
          | none => rfl
          | some c =>
            simp only [Option.map_map]
            rw [← ih.2]
            exact congrArg (fun f => Option.map f _)
              (funext fun h => getLastD_cons_eq _ w h)
        · cases hp : l.collaborator_light with
          | none => rfl
          | some c =>
            simp only [Option.map_map]
            rw [← ih.2]
            exact congrArg (fun f => Option.map f _)
              (funext fun h => getLastD_cons_eq _ w h)
    · intro self w
      simp only [TrafficLight.request_to_turn_green_states, TrafficLight.request_to_turn_green]
      cases hl : w.lights[self]? with
      | none => rfl
      | some l =>
        simp only []
        cases hc : l.current_colour <;> simp only []
        · cases hp : l.collaborator_light with
          | none => rfl
          | some c =>
            simp only [Option.map_map]
            rw [← ih.1]
            exact congrArg (fun f => Option.map f _)
              (funext fun h => getLastD_cons_eq _ w h)
        · rfl
        · rfl

/-- The last state of two histories in a row. -/
theorem getLastD_append_eq (h hs : List World) (w : World) :
    (h ++ hs).getLastD w = hs.getLastD (h.getLastD w) := by
  induction h generalizing w with
  | nil => rfl
  | cons v h ih =>
    rw [List.cons_append, getLastD_cons_eq, getLastD_cons_eq]
    exact ih v

/-- The last state listed by the instrumented `carWantsToCross` is the state
`carWantsToCross` returns, and they return together. -/
theorem carWantsToCross_states_last (fuel self : Nat) (w : World) :
    (TrafficLight.carWantsToCross_states fuel self w).map (fun h => h.getLastD w)
      = TrafficLight.carWantsToCross fuel self w := by
  simp only [TrafficLight.carWantsToCross_states, TrafficLight.carWantsToCross]
  cases hl : w.lights[self]? with
  | none => rfl
  | some l =>
    simp only []
    cases hc : l.current_colour <;> simp only []
    · cases hp : l.collaborator_light with
      | none => rfl
      | some c =>
        simp only []
        cases hcl : w.lights[c]? with
        | none => rfl
        | some cl =>
          simp only []
          by_cases hg : cl.current_colour = colour_of_light.green
          · simp only [hg, if_true, Option.map_map]
            rw [← (requests_states_last fuel).1]
            exact congrArg (fun f => Option.map f _)
              (funext fun h => getLastD_cons_eq _ w h)
          · simp only [hg, if_false]
            by_cases hr : cl.current_colour = colour_of_light.red
            · simp only [hr, if_true]
              rfl
            · simp only [hr, if_false]
              rfl
    · rfl
    · rfl

/-- The last state listed by the instrumented driver is the state the driver
returns, and they return together. -/
theorem carsWantToCross_states_last (fuel : Nat) (calls : List Nat) :
    ∀ w, (TrafficLight.carsWantToCross_states fuel calls w).map (fun h => h.getLastD w)
      = TrafficLight.carsWantToCross fuel calls w := by
  induction calls with
  | nil => intro w; rfl
  | cons self rest ih =>
    intro w
    simp only [TrafficLight.carsWantToCross_states, TrafficLight.carsWantToCross]
    rw [← carWantsToCross_states_last fuel self w]
    cases hh : TrafficLight.carWantsToCross_states fuel self w with
    | none => rfl
    | some h =>
      simp only [Option.map_some']
      rw [← ih (h.getLastD w)]
      cases hhs : TrafficLight.carsWantToCross_states fuel rest (h.getLastD w) with
      | none => rfl
      | some hs =>
        simp only [Option.map_some', getLastD_append_eq]

/-- Being a linked pair with given colours does not depend on the order. -/
theorem World.PairColours.swap {w : World} {a b : Nat} {ca cb : colour_of_light}
    (h : w.PairColours a b ca cb) : w.PairColours b a cb ca :=
  ⟨Ne.symm h.1, h.2.2.1, h.2.1, h.2.2.2.2, h.2.2.2.1⟩

/-- The objects behind a linked pair with given colours. -/
theorem World.PairColours.lookup {w : World} {a b : Nat} {ca cb : colour_of_light}
    (h : w.PairColours a b ca cb) :
    ∃ A B, w.Linked a b A B ∧ A.current_colour = ca ∧ B.current_colour = cb := by
  obtain ⟨hab, hca, hcb, hxa, hxb⟩ := h
  obtain ⟨A, hA, hAc⟩ := World.lookup_of_collaborator hca
  obtain ⟨B, hB, hBc⟩ := World.lookup_of_collaborator hcb
  refine ⟨A, B, ⟨hab, hA, hB, hAc, hBc⟩, ?_, ?_⟩
  · simpa only [World.colour, hA, Option.map_some', Option.some.injEq] using hxa
  · simpa only [World.colour, hB, Option.map_some', Option.some.injEq] using hxb

/-- A car at light `a` of a linked pair that rests in red/red, red/green or
green/red: the call returns, no state it passes through has both lights green,
and it ends with `a` green and `b` red. -/
theorem carWantsToCross_states_pair (w : World) (a b : Nat) (ca cb : colour_of_light)
    (fuel : Nat) (hp : w.PairColours a b ca cb)
    (hrest : (ca = colour_of_light.red ∧ cb = colour_of_light.red) ∨
      (ca = colour_of_light.red ∧ cb = colour_of_light.green) ∨
      (ca = colour_of_light.green ∧ cb = colour_of_light.red)) :
    ∃ h, TrafficLight.carWantsToCross_states (fuel + 4) a w = some h ∧
      (∀ v ∈ h, ¬ v.BothGreen a b) ∧
      (h.getLastD w).PairColours a b colour_of_light.green colour_of_light.red := by
  obtain ⟨A, B, ⟨hab, ha, hb, hAc, hBc⟩, hA, hB⟩ := hp.lookup
  have hla := World.lt_length_of_lookup ha
  have hlb := World.lt_length_of_lookup hb
  have hba : b ≠ a := fun h => hab h.symm
  obtain ⟨dA, nA, cA, pA⟩ := A
  obtain ⟨dB, nB, cB, pB⟩ := B
  simp only at hAc hBc hA hB
  subst hAc hBc hA hB
  rcases hrest with ⟨h1, h2⟩ | ⟨h1, h2⟩ | ⟨h1, h2⟩ <;> subst h1 h2 <;>
    simp only [TrafficLight.carWantsToCross_states, TrafficLight.request_to_turn_red_states,
      TrafficLight.request_to_turn_green_states,
      World.changeColour, List.getElem?_set, List.length_set, ha, hb, hab, hba, hla, hlb,
      if_true, if_false, Option.map_some', Option.some.injEq, exists_eq_left',
      List.forall_mem_cons, List.not_mem_nil, World.BothGreen, World.PairColours,
      World.colour, World.collaborator, getLastD_cons_eq, List.getLastD_nil, reduceCtorEq,
      ne_eq, not_false_eq_true, and_self, and_true, true_and, false_and, and_false,
      IsEmpty.forall_iff, implies_true]

/-- Cars at the lights of a linked pair that rests in red/red, green/red or
red/green: the calls return, no state passed through has both lights green, the
pair rests in one of the three colourings again, and exactly one light is
green at the end if that was so at the start or if there was a call. -/
theorem carsWantToCross_states_pair (fuel a b : Nat) (calls : List Nat) :
    ∀ w : World, w.Resting a b → (∀ x ∈ calls, x = a ∨ x = b) →
      ∃ h, TrafficLight.carsWantToCross_states (fuel + 4) calls w = some h ∧
        (∀ v ∈ h, ¬ v.BothGreen a b) ∧ (h.getLastD w).Resting a b ∧
        (w.OneGreen a b ∨ calls ≠ [] → (h.getLastD w).OneGreen a b) := by
  induction calls with
  | nil =>
    intro w hw _
    refine ⟨[], rfl, fun v hv => absurd hv (List.not_mem_nil v), hw, ?_⟩
    rintro (h | h)
    · exact h
    · exact absurd rfl h
  | cons x rest ih =>
    intro w hw hcalls
    have hx := hcalls x (List.mem_cons_self x rest)
    have hrest : ∀ y ∈ rest, y = a ∨ y = b :=
      fun y hy => hcalls y (List.mem_cons_of_mem x hy)
    have hfirst : ∃ h1, TrafficLight.carWantsToCross_states (fuel + 4) x w = some h1 ∧
        (∀ v ∈ h1, ¬ v.BothGreen a b) ∧ (h1.getLastD w).OneGreen a b := by
      rcases hx with rfl | rfl
      · rcases hw with hw | hw | hw
        · obtain ⟨h1, e, hs, hl⟩ := carWantsToCross_states_pair w x b _ _ fuel hw
            (Or.inl ⟨rfl, rfl⟩)
          exact ⟨h1, e, hs, Or.inl hl⟩
        · obtain ⟨h1, e, hs, hl⟩ := carWantsToCross_states_pair w x b _ _ fuel hw
            (Or.inr (Or.inr ⟨rfl, rfl⟩))
          exact ⟨h1, e, hs, Or.inl hl⟩
        · obtain ⟨h1, e, hs, hl⟩ := carWantsToCross_states_pair w x b _ _ fuel hw
            (Or.inr (Or.inl ⟨rfl, rfl⟩))
          exact ⟨h1, e, hs, Or.inl hl⟩
      · rcases hw with hw | hw | hw
        · obtain ⟨h1, e, hs, hl⟩ := carWantsToCross_states_pair w x a _ _ fuel hw.swap
            (Or.inl ⟨rfl, rfl⟩)
          exact ⟨h1, e, fun v hv hg => hs v hv ⟨hg.2, hg.1⟩, Or.inr hl.swap⟩
        · obtain ⟨h1, e, hs, hl⟩ := carWantsToCross_states_pair w x a _ _ fuel hw.swap
            (Or.inr (Or.inl ⟨rfl, rfl⟩))
          exact ⟨h1, e, fun v hv hg => hs v hv ⟨hg.2, hg.1⟩, Or.inr hl.swap⟩
        · obtain ⟨h1, e, hs, hl⟩ := carWantsToCross_states_pair w x a _ _ fuel hw.swap
            (Or.inr (Or.inr ⟨rfl, rfl⟩))
          exact ⟨h1, e, fun v hv hg => hs v hv ⟨hg.2, hg.1⟩, Or.inr hl.swap⟩
    obtain ⟨h1, e1, hs1, hl1⟩ := hfirst
    obtain ⟨hs, e2, hs2, -, hl2⟩ := ih (h1.getLastD w) (Or.inr hl1) hrest
    refine ⟨h1 ++ hs, ?_, ?_, ?_, ?_⟩
    · simp only [TrafficLight.carsWantToCross_states, e1, e2]
    · intro v hv
      rcases List.mem_append.1 hv with hv | hv
      · exact hs1 v hv
      · exact hs2 v hv
    · rw [getLastD_append_eq]
      exact Or.inr (hl2 (Or.inl hl1))
    · intro _
      rw [getLastD_append_eq]
      exact hl2 (Or.inl hl1)

/-- Claim C19: mutual exclusion at every step.  For a mutually linked pair
that starts with both lights red and every finite sequence of
`carWantsToCross` calls on either light, the calls return and the two lights
are never both green: not at the start, not in a resting state between calls
and not in any intermediate state inside a cascade. -/
theorem never_both_green (w : World) (a b fuel : Nat) (calls : List Nat)
    (hp : w.PairColours a b colour_of_light.red colour_of_light.red)
    (hcalls : ∀ x ∈ calls, x = a ∨ x = b) (hf : 4 ≤ fuel) :
    ∃ h, TrafficLight.carsWantToCross_states fuel calls w = some h ∧
      TrafficLight.carsWantToCross fuel calls w = some (h.getLastD w) ∧
      ¬ w.BothGreen a b ∧ ∀ v ∈ h, ¬ v.BothGreen a b := by
  obtain ⟨k, rfl⟩ : ∃ k, fuel = k + 4 := ⟨fuel - 4, by omega⟩
  obtain ⟨h, e, hs, -, -⟩ := carsWantToCross_states_pair k a b calls w (Or.inl hp) hcalls
  refine ⟨h, e, ?_, ?_, hs⟩
  · rw [← carsWantToCross_states_last, e]
    rfl
  · intro hg
    have h1 := hp.2.2.2.1
    rw [hg.1] at h1
    cases h1

/-- Witness of C19: cars at `A`, `B`, `B`, `A` of `bothRedWorld`. -/
theorem never_both_green_witness :
    bothRedWorld.PairColours 0 1 colour_of_light.red colour_of_light.red ∧
      (∀ x ∈ [0, 1, 1, 0], x = 0 ∨ x = 1) ∧
      ∃ h, TrafficLight.carsWantToCross_states 4 [0, 1, 1, 0] bothRedWorld = some h ∧
        TrafficLight.carsWantToCross 4 [0, 1, 1, 0] bothRedWorld
          = some (h.getLastD bothRedWorld) ∧
        ¬ bothRedWorld.BothGreen 0 1 ∧ ∀ v ∈ h, ¬ v.BothGreen 0 1 :=
  ⟨by decide, by decide,
    never_both_green bothRedWorld 0 1 4 [0, 1, 1, 0] (by decide) (by decide) (by decide)⟩

/-- Claim C20: reachable resting states.  For a mutually linked pair that
starts with both lights red, every finite sequence of `carWantsToCross` calls
on either light returns with the pair in red/red, green/red or red/green, so
no light is left resting in yellow; and after every non-empty sequence, that
is from the first call on, exactly one light is green and the other red. -/
theorem resting_states (w : World) (a b fuel : Nat) (calls : List Nat)
    (hp : w.PairColours a b colour_of_light.red colour_of_light.red)
    (hcalls : ∀ x ∈ calls, x = a ∨ x = b) (hf : 4 ≤ fuel) :
    ∃ w1, TrafficLight.carsWantToCross fuel calls w = some w1 ∧
      (w1.PairColours a b colour_of_light.red colour_of_light.red ∨
        w1.PairColours a b colour_of_light.green colour_of_light.red ∨
        w1.PairColours a b colour_of_light.red colour_of_light.green) ∧
      (calls ≠ [] →
        w1.PairColours a b colour_of_light.green colour_of_light.red ∨
          w1.PairColours a b colour_of_light.red colour_of_light.green) := by
  obtain ⟨k, rfl⟩ : ∃ k, fuel = k + 4 := ⟨fuel - 4, by omega⟩
  obtain ⟨h, e, -, hr, ho⟩ := carsWantToCross_states_pair k a b calls w (Or.inl hp) hcalls
  refine ⟨h.getLastD w, ?_, hr, fun hne => ho (Or.inr hne)⟩
  rw [← carsWantToCross_states_last, e]
  rfl

/-- Witness of C20: cars at `B`, `B`, `A` of `bothRedWorld`. -/
theorem resting_states_witness :
    bothRedWorld.PairColours 0 1 colour_of_light.red colour_of_light.red ∧
      (∀ x ∈ [1, 1, 0], x = 0 ∨ x = 1) ∧
      ∃ w1, TrafficLight.carsWantToCross 4 [1, 1, 0] bothRedWorld = some w1 ∧
        (w1.PairColours 0 1 colour_of_light.red colour_of_light.red ∨
          w1.PairColours 0 1 colour_of_light.green colour_of_light.red ∨
          w1.PairColours 0 1 colour_of_light.red colour_of_light.green) ∧
        ([1, 1, 0] ≠ [] →
          w1.PairColours 0 1 colour_of_light.green colour_of_light.red ∨
            w1.PairColours 0 1 colour_of_light.red colour_of_light.green) :=
  ⟨by decide, by decide,
    resting_states bothRedWorld 0 1 4 [1, 1, 0] (by decide) (by decide) (by decide)⟩

/-- The sum of two clocks with non-negative fields has non-negative fields. -/
theorem Time.add_nonNeg (a b : Time) (ha : a.NonNeg) (hb : b.NonNeg) : (a.add b).NonNeg :=
  (Time.add_normalized_of_nonneg a b ha hb).nonNeg

/-- Two sums of clocks with non-negative fields are the same clock when they
denote the same instant. -/
theorem Time.add_eq_add_of_total (a b c d : Time) (ha : a.NonNeg) (hb : b.NonNeg)
    (hc : c.NonNeg) (hd : d.NonNeg)
    (h : (a.total + b.total) % 86400 = (c.total + d.total) % 86400) :
    a.add b = c.add d := by
  apply Time.eq_of_total_eq
  · exact Time.add_normalized_of_nonneg a b ha hb
  · exact Time.add_normalized_of_nonneg c d hc hd
  · rw [Time.total_add_of_nonneg a b ha hb, Time.total_add_of_nonneg c d hc hd]
    exact h

/-- Claim C21: golden trace of the exchange.  For every mutually linked pair
with `A` red and `B` green, `carWantsToCross` on `A` returns (four nested
requests suffice) having passed, after the banner, through exactly four
states: `(A, B)` is (red, yellow), (yellow, yellow), (yellow, red) and
(green, red); the lines printed are the banner and then `B` changes to yellow,
`A` changes to yellow, `B` changes to red, `A` changes to green, stamped with
the clock after adding the delay of `B`, of `A`, of `B` and of `A` in turn;
for clocks with non-negative fields the last two stamps are `t + 2dB + dA`
and `t + 2dB + 2dA`. -/
theorem exchange_golden_trace (w : World) (a b : Nat) (A B : TrafficLight) (fuel : Nat)
    (hl : w.Linked a b A B) (hA : A.current_colour = colour_of_light.red)
    (hB : B.current_colour = colour_of_light.green) (hf : 4 ≤ fuel) :
    ∃ w0 w1 w2 w3 w4,
      TrafficLight.carWantsToCross_states fuel a w = some [w0, w1, w2, w3, w4] ∧
      TrafficLight.carWantsToCross fuel a w = some w4 ∧
      (w0.colour a = some colour_of_light.red ∧ w0.colour b = some colour_of_light.green ∧
        w0.global_time = w.global_time) ∧
      (w1.colour a = some colour_of_light.red ∧ w1.colour b = some colour_of_light.yellow ∧
        w1.global_time = w.global_time.add B.delay_time) ∧
      (w2.colour a = some colour_of_light.yellow ∧ w2.colour b = some colour_of_light.yellow ∧
        w2.global_time = (w.global_time.add B.delay_time).add A.delay_time) ∧
      (w3.colour a = some colour_of_light.yellow ∧ w3.colour b = some colour_of_light.red ∧
        w3.global_time =
          ((w.global_time.add B.delay_time).add A.delay_time).add B.delay_time) ∧
      (w4.colour a = some colour_of_light.green ∧ w4.colour b = some colour_of_light.red ∧
        w4.global_time =
          (((w.global_time.add B.delay_time).add A.delay_time).add B.delay_time).add
            A.delay_time) ∧
      w4.cout = w.cout ++
        [Line.wantsToCross w.global_time A.light colour_of_light.red,
         Line.changes w1.global_time B.light colour_of_light.yellow,
         Line.changes w2.global_time A.light colour_of_light.yellow,
         Line.changes w3.global_time B.light colour_of_light.red,
         Line.changes w4.global_time A.light colour_of_light.green] ∧
      (w.global_time.NonNeg → A.delay_time.NonNeg → B.delay_time.NonNeg →
        w3.global_time =
            (w.global_time.add (B.delay_time.add B.delay_time)).add A.delay_time ∧
          w4.global_time =
            (w.global_time.add (B.delay_time.add B.delay_time)).add
              (A.delay_time.add A.delay_time)) := by
  obtain ⟨k, rfl⟩ : ∃ k, fuel = k + 4 := ⟨fuel - 4, by omega⟩
  have hfinal := carWantsToCross_exchange w a b A B k hl hA hB
  obtain ⟨hab, ha, hb, hAc, hBc⟩ := hl
  have hla := World.lt_length_of_lookup ha
  have hlb := World.lt_length_of_lookup hb
  have hba : b ≠ a := fun h => hab h.symm
  have hstates : TrafficLight.carWantsToCross_states (k + 4) a w = some
      [{ w with cout := w.cout ++ [Line.wantsToCross w.global_time A.light colour_of_light.red] },
       World.changeColour
        { w with cout := w.cout ++
            [Line.wantsToCross w.global_time A.light colour_of_light.red] }
        b B colour_of_light.yellow,
       World.changeColour (World.changeColour
        { w with cout := w.cout ++
            [Line.wantsToCross w.global_time A.light colour_of_light.red] }
        b B colour_of_light.yellow) a A colour_of_light.yellow,
       World.changeColour (World.changeColour (World.changeColour
        { w with cout := w.cout ++
            [Line.wantsToCross w.global_time A.light colour_of_light.red] }
        b B colour_of_light.yellow) a A colour_of_light.yellow) b
        { B with current_colour := colour_of_light.yellow } colour_of_light.red,
       World.changeColour (World.changeColour (World.changeColour (World.changeColour
        { w with cout := w.cout ++
            [Line.wantsToCross w.global_time A.light colour_of_light.red] }
        b B colour_of_light.yellow) a A colour_of_light.yellow) b
        { B with current_colour := colour_of_light.yellow } colour_of_light.red) a
        { A with current_colour := colour_of_light.yellow } colour_of_light.green] := by
    simp only [TrafficLight.carWantsToCross_states, TrafficLight.request_to_turn_red_states,
      TrafficLight.request_to_turn_green_states,
      World.changeColour, List.getElem?_set, List.length_set, ha, hb, hab, hba, hla, hlb,
      hA, hB, hAc, hBc, if_true, if_false, Option.map_some']
  refine ⟨_, _, _, _, _, hstates, ?_, ?_, ?_, ?_, ?_, ?_, ?_, ?_⟩
  · rw [hfinal]
    simp only [World.changeColour, List.append_assoc, List.singleton_append, List.cons_append,
      List.nil_append]
  · simp only [World.colour, ha, hb, Option.map_some', hA, hB, and_self]
  · simp only [World.colour, World.changeColour, List.getElem?_set, List.length_set, ha, hb,
      hab, hba, hla, hlb, if_true, if_false, Option.map_some', hA, and_self]
  · simp only [World.colour, World.changeColour, List.getElem?_set, List.length_set, ha, hb,
      hab, hba, hla, hlb, if_true, if_false, Option.map_some', and_self]
  · simp only [World.colour, World.changeColour, List.getElem?_set, List.length_set, ha, hb,
      hab, hba, hla, hlb, if_true, if_false, Option.map_some', and_self]
  · simp only [World.colour, World.changeColour, List.getElem?_set, List.length_set, ha, hb,
      hab, hba, hla, hlb, if_true, if_false, Option.map_some', and_self]
  · simp only [World.changeColour, List.append_assoc, List.singleton_append, List.cons_append,
      List.nil_append]
  · intro ht hdA hdB
    simp only [World.changeColour]
    have h1 := Time.add_nonNeg _ _ ht hdB
    have h2 := Time.add_nonNeg _ _ h1 hdA
    have h3 := Time.add_nonNeg _ _ h2 hdB
    have hbb := Time.add_nonNeg _ _ hdB hdB
    have haa := Time.add_nonNeg _ _ hdA hdA
    have h4 := Time.add_nonNeg _ _ ht hbb
    constructor
    · apply Time.add_eq_add_of_total _ _ _ _ h2 hdB h4 hdA
      rw [Time.total_add_of_nonneg _ _ h1 hdA, Time.total_add_of_nonneg _ _ ht hdB,
        Time.total_add_of_nonneg _ _ ht hbb, Time.total_add_of_nonneg _ _ hdB hdB]
      omega
    · apply Time.add_eq_add_of_total _ _ _ _ h3 hdA h4 haa
      rw [Time.total_add_of_nonneg _ _ h2 hdB, Time.total_add_of_nonneg _ _ h1 hdA,
        Time.total_add_of_nonneg _ _ ht hdB, Time.total_add_of_nonneg _ _ ht hbb,
        Time.total_add_of_nonneg _ _ hdB hdB, Time.total_add_of_nonneg _ _ hdA hdA]
      omega

/-- Witness of C21: the exchange in `exchangeWorld`, whose last state is
`exchangedWorld`. -/
theorem exchange_golden_trace_witness :
    exchangeWorld.Linked 0 1
        ⟨Time.Time3 0 0 5, "A", colour_of_light.red, some 1⟩
        ⟨Time.Time3 0 0 5, "B", colour_of_light.green, some 0⟩ ∧
      ∃ w0 w1 w2 w3 w4,
        TrafficLight.carWantsToCross_states 4 0 exchangeWorld = some [w0, w1, w2, w3, w4] ∧
        TrafficLight.carWantsToCross 4 0 exchangeWorld = some w4 ∧
        (w0.colour 0 = some colour_of_light.red ∧ w0.colour 1 = some colour_of_light.green ∧
          w0.global_time = exchangeWorld.global_time) ∧
        (w1.colour 0 = some colour_of_light.red ∧ w1.colour 1 = some colour_of_light.yellow ∧
          w1.global_time = exchangeWorld.global_time.add (Time.Time3 0 0 5)) ∧
        (w2.colour 0 = some colour_of_light.yellow ∧
          w2.colour 1 = some colour_of_light.yellow ∧
          w2.global_time =
            (exchangeWorld.global_time.add (Time.Time3 0 0 5)).add (Time.Time3 0 0 5)) ∧
        (w3.colour 0 = some colour_of_light.yellow ∧ w3.colour 1 = some colour_of_light.red ∧
          w3.global_time =
            ((exchangeWorld.global_time.add (Time.Time3 0 0 5)).add (Time.Time3 0 0 5)).add
              (Time.Time3 0 0 5)) ∧
        (w4.colour 0 = some colour_of_light.green ∧ w4.colour 1 = some colour_of_light.red ∧
          w4.global_time =
            (((exchangeWorld.global_time.add (Time.Time3 0 0 5)).add (Time.Time3 0 0 5)).add
              (Time.Time3 0 0 5)).add (Time.Time3 0 0 5)) ∧
        w4.cout = exchangeWorld.cout ++
          [Line.wantsToCross exchangeWorld.global_time "A" colour_of_light.red,
           Line.changes w1.global_time "B" colour_of_light.yellow,
           Line.changes w2.global_time "A" colour_of_light.yellow,
           Line.changes w3.global_time "B" colour_of_light.red,
           Line.changes w4.global_time "A" colour_of_light.green] ∧
        (exchangeWorld.global_time.NonNeg → (Time.Time3 0 0 5).NonNeg →
          (Time.Time3 0 0 5).NonNeg →
          w3.global_time =
              (exchangeWorld.global_time.add ((Time.Time3 0 0 5).add (Time.Time3 0 0 5))).add
                (Time.Time3 0 0 5) ∧
            w4.global_time =
              (exchangeWorld.global_time.add ((Time.Time3 0 0 5).add (Time.Time3 0 0 5))).add
                ((Time.Time3 0 0 5).add (Time.Time3 0 0 5))) :=
  ⟨by decide,
    exchange_golden_trace exchangeWorld 0 1
      ⟨Time.Time3 0 0 5, "A", colour_of_light.red, some 1⟩
      ⟨Time.Time3 0 0 5, "B", colour_of_light.green, some 0⟩ 4 (by decide) rfl rfl
      (by decide)⟩

/-! ## Calls of `Time::add` whose argument is the receiver -/

/-- With an argument other than the receiver, the statement-by-statement
method is `Time.add`. -/
theorem Time.addByRef_other (self anotherTime : Time) :
    self.addByRef (TimeArg.other anotherTime) = self.add anotherTime :=
  rfl

/-- Closed form of the call `t.add(t)` on a clock with non-negative fields:
the minutes and the hours added are those the receiver holds after its own
carry, so they are doubled after the carry has gone in. -/
theorem Time.addByRef_receiver_of_nonneg (t : Time) (ht : t.NonNeg) :
    t.addByRef TimeArg.receiver =
      { theHour := (2 * (t.theHour + (2 * (t.theMins + (2 * t.theSecs) / 60)) / 60)) % 24,
        theMins := (2 * (t.theMins + (2 * t.theSecs) / 60)) % 60,
        theSecs := (2 * t.theSecs) % 60 } := by
  obtain ⟨hh, hm, hs⟩ := ht
  have h1 : 0 ≤ t.theSecs + t.theSecs := by omega
  have h2 : 0 ≤ t.theMins + (t.theSecs + t.theSecs) / 60
      + (t.theMins + (t.theSecs + t.theSecs) / 60) := by omega
  have h3 : 0 ≤ t.theHour + (t.theMins + (t.theSecs + t.theSecs) / 60
      + (t.theMins + (t.theSecs + t.theSecs) / 60)) / 60
      + (t.theHour + (t.theMins + (t.theSecs + t.theSecs) / 60
      + (t.theMins + (t.theSecs + t.theSecs) / 60)) / 60) := by omega
  simp only [Time.addByRef, TimeArg.read]
  rw [tdiv_of_nonneg _ h1, tmod60_of_nonneg _ h1, tdiv_of_nonneg _ h2, tmod60_of_nonneg _ h2,
    tmod24_of_nonneg _ h3]
  simp only [Time.mk.injEq]
  omega

/-- The normalised range is reached by every call of `Time::add` on clocks
with non-negative fields, the call `t.add(t)` included. -/
theorem Time.addByRef_normalized_of_nonneg (t : Time) (arg : TimeArg) (ht : t.NonNeg)
    (harg : ∀ b, arg = TimeArg.other b → b.NonNeg) : (t.addByRef arg).Normalized := by
  cases arg with
  | other b => exact Time.add_normalized_of_nonneg t b ht (harg b rfl)
  | receiver =>
    rw [Time.addByRef_receiver_of_nonneg t ht]
    obtain ⟨hh, hm, hs⟩ := ht
    simp only [Time.Normalized]
    omega

/-- Claim C3, evaluated on the code: for `Time t(0,0,45); t.add(t);` the
receiver and the argument are the clock 0:0:45, in normalised range, and the
method leaves 0:2:30, which denotes 150 seconds, while
`(total t + total t) mod 86400` is 90 seconds: the minute carried out of the
seconds is added a second time by `theMins += anotherTime.theMins`, which
reads the receiver after its update. -/
theorem add_receiver_total_mismatch :
    (Time.Time3 0 0 45).Normalized ∧
      (Time.Time3 0 0 45).addByRef TimeArg.receiver
        = { theHour := 0, theMins := 2, theSecs := 30 } ∧
      ((Time.Time3 0 0 45).addByRef TimeArg.receiver).total = 150 ∧
      ((Time.Time3 0 0 45).total + (Time.Time3 0 0 45).total) % 86400 = 90 := by
  decide

/-- Claim C5, evaluated on the code: with `Time t(0,0,0), a(0,0,45);` and `b`
the object `a` itself, `t.add(a); t.add(b);` leaves `t` at 0:1:30, while
`a.add(b); t.add(a);` leaves `a`, and then `t`, at 0:2:30. -/
theorem add_receiver_not_assoc :
    ((Time.Time3 0 0 0).addByRef (TimeArg.other (Time.Time3 0 0 45))).addByRef
        (TimeArg.other (Time.Time3 0 0 45))
        = { theHour := 0, theMins := 1, theSecs := 30 } ∧
      (Time.Time3 0 0 45).addByRef TimeArg.receiver
        = { theHour := 0, theMins := 2, theSecs := 30 } ∧
      (Time.Time3 0 0 0).addByRef
          (TimeArg.other ((Time.Time3 0 0 45).addByRef TimeArg.receiver))
        = { theHour := 0, theMins := 2, theSecs := 30 } := by
  decide
